import Mathlib

/-!
# Nui: observed values, event attributes and the element lifecycle

A shallow embedding of
* `nui/frontend/event_system/observed_value.hpp` (ObservedBase, ModifiableObserved,
  ObservedContainer),
* `nui/attributes/attribute.hpp` (event attribute wrapper, Observed attribute binding),
* `nui/frontend/dom/element.hpp` (Element destructor, setup, slotFor, replaceElement).

The global event context and the range context are declared in `event_context.hpp` and
`range_event_context.hpp`, which are not part of the embedded sources.  Their operations are
taken as parameters (`Env`); every call into them is recorded in a call log so that the
order and the number of the calls made by the embedded code can be stated.
-/

namespace Nui

/-! ## External collaborators -/

/-- Event ids are handles into the event registry (`EventContext::EventIdType`). -/
abbrev EventIdType := Nat

/-- Tag of a structural edit handed to the range context.  The enumeration is declared in
`range.hpp`, which is not embedded; these are the three tags `observed_value.hpp` uses. -/
inductive RangeStateType
  | Modify
  | Insert
  | Erase
  deriving DecidableEq, Repr

/-- Result of `RangeEventContext::insertModificationRange`.  `insertRangeChecked` tests for
`Final` and for `Retry`; `Other` stands for every remaining result (the last `else`). -/
inductive InsertResult
  | Final
  | Retry
  | Other
  deriving DecidableEq, Repr

/-- One call into the global event context or into the range context. -/
inductive Call
  | activateEvent (id : EventIdType)
  | executeActiveEventsImmediately
  | insertModificationRange (size low high : Nat) (type : RangeStateType)
  | reset (size : Nat) (flag : Bool)
  deriving DecidableEq, Repr

/-- The two members of the event system that `ObservedBase::update` uses, over an arbitrary
state `S` of the collaborators: the invalid id and `globalEventContext.activateEvent`, which
answers `true` when the returned handle is not `nullptr`. -/
structure EventEnv (S : Type) where
  invalidEventId : EventIdType
  activateEvent : S → EventIdType → S × Bool

/-- The remaining operations the observed container calls: the flush of the global event
context and the two operations of the container's `rangeContext_`. -/
structure Env (S : Type) extends EventEnv S where
  executeActiveEventsImmediately : S → S
  insertModificationRange : S → Nat → Nat → Nat → RangeStateType → S × InsertResult
  reset : S → Nat → Bool → S

/-- State of the collaborators together with the log of the calls made so far. -/
structure Machine (S : Type) where
  ext : S
  log : List Call

variable {S : Type} {α β : Type}

/-- The call `globalEventContext.activateEvent(id)`. -/
def Machine.activateEvent (env : EventEnv S) (m : Machine S) (id : EventIdType) : Machine S × Bool :=
  ({ ext := (env.activateEvent m.ext id).1, log := m.log ++ [Call.activateEvent id] },
   (env.activateEvent m.ext id).2)

/-- The call `globalEventContext.executeActiveEventsImmediately()`. -/
def Machine.executeActiveEventsImmediately (env : Env S) (m : Machine S) : Machine S :=
  { ext := env.executeActiveEventsImmediately m.ext,
    log := m.log ++ [Call.executeActiveEventsImmediately] }

/-- The call `rangeContext_.insertModificationRange(size, low, high, type)`. -/
def Machine.insertModificationRange (env : Env S) (m : Machine S) (size low high : Nat)
    (type : RangeStateType) : Machine S × InsertResult :=
  ({ ext := (env.insertModificationRange m.ext size low high type).1,
     log := m.log ++ [Call.insertModificationRange size low high type] },
   (env.insertModificationRange m.ext size low high type).2)

/-- The call `rangeContext_.reset(size, flag)`. -/
def Machine.reset (env : Env S) (m : Machine S) (size : Nat) (flag : Bool) : Machine S :=
  { ext := env.reset m.ext size flag, log := m.log ++ [Call.reset size flag] }

/-- Number of flushes (calls of `executeActiveEventsImmediately`) in a call log. -/
def flushCount (log : List Call) : Nat :=
  log.count Call.executeActiveEventsImmediately

/-- Whether a call is a call of `insertModificationRange`. -/
def Call.isInsertModificationRange : Call → Bool
  | Call.insertModificationRange _ _ _ _ => true
  | _ => false

/-- Number of calls of `insertModificationRange` in a call log. -/
def insertCallCount (log : List Call) : Nat :=
  log.countP Call.isInsertModificationRange

/-- The ids passed to `activateEvent`, in call order. -/
def activations : List Call → List EventIdType
  | [] => []
  | Call.activateEvent id :: rest => id :: activations rest
  | _ :: rest => activations rest

/-! ## ObservedBase -/

/-- The two attachment lists of `ObservedBase`. -/
structure ObservedBase where
  attachedEvents_ : List EventIdType
  attachedOneshotEvents_ : List EventIdType
  deriving DecidableEq, Repr

/-- `attachEvent`: `attachedEvents_.emplace_back(eventId)`. -/
def ObservedBase.attachEvent (o : ObservedBase) (eventId : EventIdType) : ObservedBase :=
  { o with attachedEvents_ := o.attachedEvents_ ++ [eventId] }

/-- `attachOneshotEvent`: `attachedOneshotEvents_.emplace_back(eventId)`. -/
def ObservedBase.attachOneshotEvent (o : ObservedBase) (eventId : EventIdType) : ObservedBase :=
  { o with attachedOneshotEvents_ := o.attachedOneshotEvents_ ++ [eventId] }

/-- `unattachEvent`: erase-remove of `eventId` from `attachedEvents_`. -/
def ObservedBase.unattachEvent (o : ObservedBase) (eventId : EventIdType) : ObservedBase :=
  { o with attachedEvents_ := o.attachedEvents_.filter (fun e => e ≠ eventId) }

/-- First loop of `update`: every repeating id is activated in list order; an entry whose
activation returned `nullptr` is overwritten with the invalid id. -/
def activateAttached (env : EventEnv S) : List EventIdType → Machine S → List EventIdType × Machine S
  | [], m => ([], m)
  | event :: rest, m =>
    let r := Machine.activateEvent env m event
    let tail := activateAttached env rest r.1
    ((if r.2 then event else env.invalidEventId) :: tail.1, tail.2)

/-- Second loop of `update`: every one-shot id is activated in list order. -/
def activateOneshot (env : EventEnv S) : List EventIdType → Machine S → Machine S
  | [], m => m
  | event :: rest, m => activateOneshot env rest (Machine.activateEvent env m event).1

/-- `ObservedBase::update(force)`; the base class ignores `force`. -/
def ObservedBase.update (env : EventEnv S) (o : ObservedBase) (m : Machine S) :
    ObservedBase × Machine S :=
  let r := activateAttached env o.attachedEvents_ m
  let m2 := activateOneshot env o.attachedOneshotEvents_ r.2
  ({ attachedEvents_ := r.1.filter (fun e => e ≠ env.invalidEventId),
     attachedOneshotEvents_ := [] }, m2)

/-! ## ModifiableObserved -/

/-- `ModifiableObserved<ContainedT>`: the attachment lists and the contained value. -/
structure ModifiableObserved (α : Type) extends ObservedBase where
  contained_ : α

/-- `update` as inherited by `ModifiableObserved` (not overridden there). -/
def ModifiableObserved.update (env : EventEnv S) (o : ModifiableObserved α) (m : Machine S) :
    ModifiableObserved α × Machine S :=
  let r := o.toObservedBase.update env m
  ({ o with toObservedBase := r.1 }, r.2)

/-- The generic `operator=(T&& t)`: `contained_ = t; update();`. -/
def ModifiableObserved.assign (env : EventEnv S) (o : ModifiableObserved α) (t : α) (m : Machine S) :
    ModifiableObserved α × Machine S :=
  ModifiableObserved.update env { o with contained_ := t } m

/-- `assignChecked(T&& other)`: assigns and updates only when `contained_ != other`. -/
def ModifiableObserved.assignChecked [DecidableEq α] (env : EventEnv S) (o : ModifiableObserved α)
    (other : α) (m : Machine S) : ModifiableObserved α × Machine S :=
  if o.contained_ ≠ other then
    ModifiableObserved.update env { o with contained_ := other } m
  else
    (o, m)

/-- Plain assignment `observed = t`.  Two overloads of `operator=(T&& t)` exist: the generic
one, and one constrained by `std::equality_comparable<T> && Fundamental<T>` whose body is
`return assignChecked(t);`.  `fundamental` says that the constraint holds for the deduced
`T`, in which case overload resolution picks the constrained one (the concept `Fundamental`
is declared in `nui/concepts.hpp`, which is not embedded). -/
def ModifiableObserved.operatorAssign [DecidableEq α] (fundamental : Bool) (env : EventEnv S)
    (o : ModifiableObserved α) (t : α) (m : Machine S) : ModifiableObserved α × Machine S :=
  if fundamental then
    ModifiableObserved.assignChecked env o t m
  else
    ModifiableObserved.assign env o t m

/-- `modify()` followed by the release of the returned `ModificationProxy`: the caller may
change the contained value through the proxy (`f`), the proxy destructor calls
`observed_.update(true)`. -/
def ModifiableObserved.modify (env : EventEnv S) (o : ModifiableObserved α) (f : α → α)
    (m : Machine S) : ModifiableObserved α × Machine S :=
  ModifiableObserved.update env { o with contained_ := f o.contained_ } m

/-! ## ObservedContainer -/

/-- `ObservedContainer<ContainerT>` for a sequence container: a `ModifiableObserved` whose
contained value is the element sequence.  The member `rangeContext_` lives in the
collaborator state of the `Machine`. -/
abbrev ObservedContainer (α : Type) := ModifiableObserved (List α)

/-- `ObservedContainer::update(force)`: with `force` the range context is reset to the
current size first, then `ObservedBase::update` runs. -/
def ObservedContainer.update (env : Env S) (o : ObservedContainer α) (force : Bool)
    (m : Machine S) : ObservedContainer α × Machine S :=
  ModifiableObserved.update env.toEventEnv o
    (if force then Machine.reset env m o.contained_.length true else m)

/-- The recursive closure `doInsert` of `insertRangeChecked`. -/
def doInsert (env : Env S) (low high : Nat) (type : RangeStateType) (retries : Nat)
    (o : ObservedContainer α) (m : Machine S) : ObservedContainer α × Machine S :=
  let r := Machine.insertModificationRange env m o.contained_.length low high type
  match r.2 with
  | InsertResult.Final =>
    let u := ObservedContainer.update env o false r.1
    (u.1, Machine.executeActiveEventsImmediately env u.2)
  | InsertResult.Retry =>
    if retries < 3 then
      doInsert env low high type (retries + 1) o r.1
    else
      let u := ObservedContainer.update env o false
        (Machine.reset env r.1 o.contained_.length true)
      (u.1, Machine.executeActiveEventsImmediately env u.2)
  | InsertResult.Other => ObservedContainer.update env o false r.1
termination_by 3 - retries
decreasing_by omega

/-- `insertRangeChecked(low, high, type)`: `doInsert(0)`. -/
def ObservedContainer.insertRangeChecked (env : Env S) (o : ObservedContainer α)
    (low high : Nat) (type : RangeStateType) (m : Machine S) :
    ObservedContainer α × Machine S :=
  doInsert env low high type 0 o m


/-! ## Container edits that go through insertRangeChecked -/

/-- `push_back(value)`: appends, then `insertRangeChecked(size() - 1, size() - 1, Insert)`. -/
def ObservedContainer.push_back (env : Env S) (o : ObservedContainer β) (value : β)
    (m : Machine S) : ObservedContainer β × Machine S :=
  let o1 : ObservedContainer β := { o with contained_ := o.contained_ ++ [value] }
  ObservedContainer.insertRangeChecked env o1 (o1.contained_.length - 1)
    (o1.contained_.length - 1) RangeStateType.Insert m

/-- `insert(pos, value)` with `distance = pos - cbegin()`, where `distance ≤ size()`: inserts
the value in front of the element at `distance`, then
`insertRangeChecked(distance, distance, Insert)`. -/
def ObservedContainer.insert (env : Env S) (o : ObservedContainer β) (distance : Nat)
    (value : β) (m : Machine S) : ObservedContainer β × Machine S :=
  let o1 : ObservedContainer β :=
    { o with contained_ := o.contained_.take distance ++ value :: o.contained_.drop distance }
  ObservedContainer.insertRangeChecked env o1 distance distance RangeStateType.Insert m

/-- `erase(pos)` with `distance = pos - cbegin()`, where `distance < size()`: removes the
element at `distance`, then `insertRangeChecked(distance, distance, Erase)`. -/
def ObservedContainer.erase (env : Env S) (o : ObservedContainer β) (distance : Nat)
    (m : Machine S) : ObservedContainer β × Machine S :=
  let o1 : ObservedContainer β := { o with contained_ := o.contained_.eraseIdx distance }
  ObservedContainer.insertRangeChecked env o1 distance distance RangeStateType.Erase m

/-- `pop_back()` on a container that is not empty: removes the last element, then
`insertRangeChecked(size(), size(), Erase)` with the size after the removal. -/
def ObservedContainer.pop_back (env : Env S) (o : ObservedContainer β) (m : Machine S) :
    ObservedContainer β × Machine S :=
  let o1 : ObservedContainer β := { o with contained_ := o.contained_.dropLast }
  ObservedContainer.insertRangeChecked env o1 o1.contained_.length o1.contained_.length
    RangeStateType.Erase m

/-- `resize(count, fillValue)`: grows with copies of `fillValue` or truncates; a growth
records `(sizeBefore, count, Insert)`, everything else `(count, sizeBefore, Erase)`. -/
def ObservedContainer.resize (env : Env S) (o : ObservedContainer β) (count : Nat)
    (fillValue : β) (m : Machine S) : ObservedContainer β × Machine S :=
  let sizeBefore := o.contained_.length
  let o1 : ObservedContainer β :=
    { o with contained_ :=
        o.contained_.take count ++ List.replicate (count - sizeBefore) fillValue }
  if sizeBefore < count then
    ObservedContainer.insertRangeChecked env o1 sizeBefore count RangeStateType.Insert m
  else
    ObservedContainer.insertRangeChecked env o1 count sizeBefore RangeStateType.Erase m

/-- `ReferenceWrapper::operator=(T&& ref)` on the wrapper returned by `operator[](pos)` or
`at(pos)`: `ref_ = ref`, then `owner_->insertRangeChecked(pos_, pos_, Modify)`. -/
def ReferenceWrapper.assign (env : Env S) (owner : ObservedContainer β) (pos : Nat) (ref : β)
    (m : Machine S) : ObservedContainer β × Machine S :=
  let o1 : ObservedContainer β := { owner with contained_ := owner.contained_.set pos ref }
  ObservedContainer.insertRangeChecked env o1 pos pos RangeStateType.Modify m

/-! ## User handlers and the event attribute wrapper -/

/-- The program state a user handler works on: the collaborators, one observed value and
one observed container. -/
structure World (S α β : Type) where
  machine : Machine S
  value : ModifiableObserved α
  container : ObservedContainer β

/-- The mutating operations a handler can perform on the observed value and on the observed
container of a `World`. -/
inductive Mutation (α β : Type)
  | operatorAssign (fundamental : Bool) (v : α)
  | assignChecked (v : α)
  | modify (f : α → α)
  | push_back (value : β)
  | insert (distance : Nat) (value : β)
  | erase (distance : Nat)
  | pop_back
  | resize (count : Nat) (fillValue : β)
  | referenceAssign (pos : Nat) (ref : β)

/-- Whether the operation is one of the observed value (not a container edit). -/
def Mutation.isValueMutation : Mutation α β → Bool
  | Mutation.operatorAssign _ _ => true
  | Mutation.assignChecked _ => true
  | Mutation.modify _ => true
  | _ => false

/-- Performs one mutating operation. -/
def Mutation.run [DecidableEq α] (env : Env S) (w : World S α β) : Mutation α β → World S α β
  | Mutation.operatorAssign fundamental v =>
    let r := ModifiableObserved.operatorAssign fundamental env.toEventEnv w.value v w.machine
    { w with value := r.1, machine := r.2 }
  | Mutation.assignChecked v =>
    let r := ModifiableObserved.assignChecked env.toEventEnv w.value v w.machine
    { w with value := r.1, machine := r.2 }
  | Mutation.modify f =>
    let r := ModifiableObserved.modify env.toEventEnv w.value f w.machine
    { w with value := r.1, machine := r.2 }
  | Mutation.push_back value =>
    let r := ObservedContainer.push_back env w.container value w.machine
    { w with container := r.1, machine := r.2 }
  | Mutation.insert distance value =>
    let r := ObservedContainer.insert env w.container distance value w.machine
    { w with container := r.1, machine := r.2 }
  | Mutation.erase distance =>
    let r := ObservedContainer.erase env w.container distance w.machine
    { w with container := r.1, machine := r.2 }
  | Mutation.pop_back =>
    let r := ObservedContainer.pop_back env w.container w.machine
    { w with container := r.1, machine := r.2 }
  | Mutation.resize count fillValue =>
    let r := ObservedContainer.resize env w.container count fillValue w.machine
    { w with container := r.1, machine := r.2 }
  | Mutation.referenceAssign pos ref =>
    let r := ReferenceWrapper.assign env w.container pos ref w.machine
    { w with container := r.1, machine := r.2 }

/-- Number of container edits among the mutations of a handler. -/
def containerEditCount : List (Mutation α β) → Nat
  | [] => 0
  | op :: rest => (if op.isValueMutation then 0 else 1) + containerEditCount rest

/-- A user handler that performs the given mutations one after the other. -/
def runHandler [DecidableEq α] (env : Env S) (ops : List (Mutation α β)) (w : World S α β) :
    World S α β :=
  ops.foldl (Mutation.run env) w

/-- The function an event attribute (`MAKE_HTML_EVENT_ATTRIBUTE`) stores for a user handler
`func`: `func(val); globalEventContext.executeActiveEventsImmediately();`. -/
def eventAttributeHandler {V : Type} (env : Env S) (func : V → World S α β → World S α β)
    (val : V) (w : World S α β) : World S α β :=
  let w1 := func val w
  { w1 with machine := Machine.executeActiveEventsImmediately env w1.machine }

/-! ## Elements (`frontend/dom/element.hpp`) -/

/-- Identity of a native handle (`Nui::val`). -/
abbrev Val := Nat

/-- The calls an element makes on native handles, on its attributes and on its recorded
event clearers. -/
inductive DomCall
  | remove (val : Val)
  | removeChild (parent val : Val)
  | replaceWith (val replacement : Val)
  | setOn (val : Val) (name : Nat)
  | createEvent (val : Val) (id : EventIdType)
  | clear (id : EventIdType)
  deriving DecidableEq, Repr

/-- Whether the call is the call `clear(id)` made by a recorded event clearer. -/
def DomCall.isClear : DomCall → Bool
  | DomCall.clear _ => true
  | _ => false

/-- Whether the call takes the handle `val` out of the tree by `remove` or by
`removeChild`. -/
def DomCall.removes (val : Val) : DomCall → Bool
  | DomCall.remove v => v == val
  | DomCall.removeChild _ v => v == val
  | _ => false

/-- The values the member `destroy_` can hold: the three functions of `Detail`. -/
inductive DestroyFn
  | destroyByRemove
  | destroyByParentChildRemoval
  | doNotDestroy
  deriving DecidableEq, Repr

/-- Calling `destroy_(val)`.  `parentOf val` is the parent node that
`destroyByParentChildRemoval` finds (none when the handle has no own property
`parentNode` or the property is undefined or null). -/
def DestroyFn.call (parentOf : Val → Option Val) : DestroyFn → Val → List DomCall
  | DestroyFn.destroyByRemove, val => [DomCall.remove val]
  | DestroyFn.destroyByParentChildRemoval, val =>
    match parentOf val with
    | some parent => [DomCall.removeChild parent val]
    | none => [DomCall.remove val]
  | DestroyFn.doNotDestroy, _ => []

/-- What `setup` uses of one attribute of an element descriptor (the descriptor classes are
declared in `html_element.hpp`, which is not embedded): the name of the attribute that `setOn` applies, whether
`getEventClear()` returns a callable, and the id returned by `createEvent`. -/
structure AttributeDescriptor where
  name : Nat
  hasEventClear : Bool
  eventId : EventIdType
  deriving DecidableEq, Repr

/-- An element descriptor (`HtmlElement`), as far as `setup` reads it. -/
structure HtmlElement where
  attributes : List AttributeDescriptor
  deriving DecidableEq, Repr

/-- One closure pushed to `eventClearers` by `setup`: the captured `clear` (present or
empty) and the captured `id`. -/
structure EventClearer where
  clear : Bool
  id : EventIdType
  deriving DecidableEq, Repr

/-- `Dom::Element`: the native handle `element_`, the destroy function `destroy_`, the owned
children `children_` and the closure `unsetup_` (none for an empty `std::function`,
otherwise the captured vector of event clearers).  A parent is taken to be the only owner of
its children, so that clearing `children_` destroys them. -/
inductive Element
  | mk (element_ : Val) (destroy_ : DestroyFn) (children_ : List Element)
      (unsetup_ : Option (List EventClearer))

/-- The member `element_`, also returned by `val()`. -/
def Element.val : Element → Val
  | Element.mk element_ _ _ _ => element_

/-- The member `destroy_`. -/
def Element.destroy_ : Element → DestroyFn
  | Element.mk _ destroy_ _ _ => destroy_

/-- The member `children_`. -/
def Element.children_ : Element → List Element
  | Element.mk _ _ children_ _ => children_

/-- The member `unsetup_`. -/
def Element.unsetup_ : Element → Option (List EventClearer)
  | Element.mk _ _ _ unsetup_ => unsetup_

/-- An element as the constructors leave it: default `destroy_ = Detail::destroyByRemove`,
no children, empty `unsetup_`. -/
def Element.new (val : Val) : Element :=
  Element.mk val DestroyFn.destroyByRemove [] none

/-- Running the recorded clearers in order: each calls `clear(id)` if `clear` is callable. -/
def runEventClearers : List EventClearer → List DomCall
  | [] => []
  | c :: rest => (if c.clear then [DomCall.clear c.id] else []) ++ runEventClearers rest

/-- The statement `if (unsetup_) unsetup_();`. -/
def runUnsetup : Option (List EventClearer) → List DomCall
  | none => []
  | some eventClearers => runEventClearers eventClearers

mutual
/-- The destructor `~Element()`: `clearChildren(); destroy_(element_);`.  The member
`unsetup_` is destroyed afterwards without being called. -/
def Element.destructor (parentOf : Val → Option Val) : Element → List DomCall
  | Element.mk element_ destroy_ children_ _ =>
    destroyAll parentOf children_ ++ destroy_.call parentOf element_
/-- The call `children_.clear()`: every child is destroyed. -/
def destroyAll (parentOf : Val → Option Val) : List Element → List DomCall
  | [] => []
  | child :: rest => Element.destructor parentOf child ++ destroyAll parentOf rest
end

/-- The calls of the loop of `setup`: per attribute `setOn(*this)`, then `createEvent`. -/
def setupCalls (val : Val) : List AttributeDescriptor → List DomCall
  | [] => []
  | a :: rest =>
    DomCall.setOn val a.name :: DomCall.createEvent val a.eventId :: setupCalls val rest

/-- The vector `eventClearers` that `setup` collects. -/
def setupClearers : List AttributeDescriptor → List EventClearer
  | [] => []
  | a :: rest => { clear := a.hasEventClear, id := a.eventId } :: setupClearers rest

/-- `setup(element)`: applies every attribute, creates its event, and stores the collected
clearers in `unsetup_`. -/
def Element.setup (e : Element) (element : HtmlElement) : Element × List DomCall :=
  (Element.mk e.val e.destroy_ e.children_ (some (setupClearers element.attributes)),
   setupCalls e.val element.attributes)

/-- `slotFor(value)`: clears the children, runs and empties `unsetup_`, replaces the native
handle by the handle of `value`, takes that handle over and makes `destroy_` a no-op. -/
def Element.slotFor (parentOf : Val → Option Val) (e value : Element) :
    Element × List DomCall :=
  (Element.mk value.val DestroyFn.doNotDestroy [] none,
   destroyAll parentOf e.children_ ++ runUnsetup e.unsetup_
     ++ [DomCall.replaceWith e.val value.val])

/-- `replaceElementImpl(element)`: clears the children, runs and empties `unsetup_`, replaces
the native handle by the freshly created `replacement`, then runs `setup`. -/
def Element.replaceElementImpl (parentOf : Val → Option Val) (e : Element)
    (element : HtmlElement) (replacement : Val) : Element × List DomCall :=
  let s := (Element.mk replacement e.destroy_ [] none).setup element
  (s.1,
   destroyAll parentOf e.children_ ++ runUnsetup e.unsetup_
     ++ [DomCall.replaceWith e.val replacement] ++ s.2)

/-! ## Observed attribute bindings (`attributes/attribute.hpp`) and the event registry -/

/-- Modelled from the spec: an entry of the event registry, whose header `event_context.hpp`
is not embedded.  The spec describes an event as a callback plus a liveness predicate,
identified by a stable id; the entries here are the events that
`Attribute<_, Observed<T>>::createEvent` registers, whose two closures capture the weak
pointer to `element`.  `active` is the pending mark that activation sets. -/
structure RegisteredEvent where
  id : EventIdType
  element : Nat
  active : Bool
  deriving DecidableEq, Repr

/-- Modelled from the spec: the event registry, "arena of callback entries identified by
stable ids", kept in registration order, with the next unused id. -/
structure EventRegistry where
  events : List RegisteredEvent
  nextId : EventIdType
  deriving DecidableEq, Repr

/-- Modelled from the spec: `register(event) -> EventId` stores the event under a new id. -/
def EventRegistry.registerEvent (r : EventRegistry) (element : Nat) :
    EventRegistry × EventIdType :=
  ({ events := r.events ++ [{ id := r.nextId, element := element, active := false }],
     nextId := r.nextId + 1 }, r.nextId)

/-- The pending mark set on the entries with the given id. -/
def RegisteredEvent.mark (id : EventIdType) (ev : RegisteredEvent) : RegisteredEvent :=
  if ev.id = id then { ev with active := true } else ev

/-- Modelled from the spec: `activate(id)` "marks the event pending and returns a handle if
still alive, or signals invalid if the event was already removed"; it never invokes user
code. -/
def EventRegistry.activateEvent (r : EventRegistry) (id : EventIdType) :
    EventRegistry × Bool :=
  ({ r with events := r.events.map (RegisteredEvent.mark id) },
   r.events.any (fun ev => ev.id == id))

/-- The event system of `ObservedBase::update` over the modelled registry; the constant
`EventRegistry::invalidEventId` is a parameter. -/
def registryEventEnv (invalidEventId : EventIdType) : EventEnv EventRegistry where
  invalidEventId := invalidEventId
  activateEvent := EventRegistry.activateEvent

/-- The registry entries after the ids of a list have been activated one after the other. -/
def markAll (ids : List EventIdType) (events : List RegisteredEvent) : List RegisteredEvent :=
  ids.foldl (fun es id => es.map (RegisteredEvent.mark id)) events

/-- The callback closure that `Attribute<_, Observed<T>>::createEvent` registers:
`if (auto shared = element.lock(); shared) { event(shared, obs.value()); return true; }
return false;`.  The result is the returned flag and the applications of the user function
`event` (element and value passed). -/
def attributeCallback (expired : Nat → Bool) (element : Nat) (value : α) :
    Bool × List (Nat × α) :=
  if expired element then (false, []) else (true, [(element, value)])

/-- The liveness closure that `createEvent` registers: `return !element.expired();`. -/
def attributeIsAlive (expired : Nat → Bool) (element : Nat) : Bool :=
  !expired element

/-- Modelled from the spec: the pass of `executeActiveImmediately()` over the registry,
which "runs every pending, active-marked event synchronously in registration order,
invoking `callback(id)`; if `callback` returns false or `isAlive()` is false, the id is
queued for removal".  `prefilter` chooses whether an event whose `isAlive()` is false is
dropped without invoking its callback.  The result is the compacted entry list and the
applications of user functions, in order. -/
def flushEvents (prefilter : Bool) (expired : Nat → Bool) (value : α) :
    List RegisteredEvent → List RegisteredEvent × List (Nat × α)
  | [] => ([], [])
  | ev :: rest =>
    let tail := flushEvents prefilter expired value rest
    if ev.active then
      if prefilter && !attributeIsAlive expired ev.element then
        (tail.1, tail.2)
      else
        let r := attributeCallback expired ev.element value
        if r.1 && attributeIsAlive expired ev.element then
          ({ ev with active := false } :: tail.1, r.2 ++ tail.2)
        else
          (tail.1, r.2 ++ tail.2)
    else
      (ev :: tail.1, tail.2)

/-- The state around one observed value with attribute bindings: the registry (with the call
log), the elements whose weak pointers have expired, the observed value, and the
applications of the bindings' user functions so far. -/
structure BindingWorld (α : Type) where
  machine : Machine EventRegistry
  expired : List Nat
  observed : ModifiableObserved α
  userCalls : List (Nat × α)

/-- `Attribute<_, Observed<T>>::createEvent(element, event)`: registers the event and
attaches its id to the observed value. -/
def BindingWorld.createEvent (w : BindingWorld α) (element : Nat) : BindingWorld α :=
  let r := w.machine.ext.registerEvent element
  { w with
    machine := { w.machine with ext := r.1 },
    observed := { w.observed with toObservedBase := w.observed.toObservedBase.attachEvent r.2 } }

/-- The owning element is destroyed: weak pointers to it are expired from now on. -/
def BindingWorld.destroyElement (w : BindingWorld α) (element : Nat) : BindingWorld α :=
  { w with expired := element :: w.expired }

/-- A plain assignment to the observed value (generic `operator=`). -/
def BindingWorld.assign (invalidEventId : EventIdType) (w : BindingWorld α) (v : α) :
    BindingWorld α :=
  let r := ModifiableObserved.assign (registryEventEnv invalidEventId) w.observed v w.machine
  { w with observed := r.1, machine := r.2 }

/-- A flush: `globalEventContext.executeActiveEventsImmediately()` over the modelled
registry. -/
def BindingWorld.executeActiveEventsImmediately (prefilter : Bool) (w : BindingWorld α) :
    BindingWorld α :=
  let r := flushEvents prefilter (fun e => decide (e ∈ w.expired)) w.observed.contained_
    w.machine.ext.events
  { w with
    machine := { ext := { w.machine.ext with events := r.1 },
                 log := w.machine.log ++ [Call.executeActiveEventsImmediately] },
    userCalls := w.userCalls ++ r.2 }

/-- A sample state: empty registry, no expired element, the observed value holds 0. -/
def emptyBindingWorld : BindingWorld Nat :=
  { machine := { ext := { events := [], nextId := 0 }, log := [] },
    expired := [],
    observed := { attachedEvents_ := [], attachedOneshotEvents_ := [], contained_ := 0 },
    userCalls := [] }

/-! ## Attach histories and sample collaborators -/

/-- One attach call made on an observed value: `attachEvent` or `attachOneshotEvent`. -/
inductive Attach
  | repeating (id : EventIdType)
  | oneshot (id : EventIdType)
  deriving DecidableEq, Repr

/-- The id an attach call registers. -/
def Attach.id : Attach → EventIdType
  | Attach.repeating id => id
  | Attach.oneshot id => id

/-- Performs one attach call. -/
def Attach.apply (o : ObservedBase) : Attach → ObservedBase
  | Attach.repeating id => o.attachEvent id
  | Attach.oneshot id => o.attachOneshotEvent id

/-- The attachment lists of a default-constructed observed value after the given attach
calls, made in list order. -/
def attachAll (calls : List Attach) : ObservedBase :=
  calls.foldl Attach.apply { attachedEvents_ := [], attachedOneshotEvents_ := [] }

/-- The ids attached by `attachEvent`, in call order. -/
def repeatingIds : List Attach → List EventIdType
  | [] => []
  | Attach.repeating id :: rest => id :: repeatingIds rest
  | Attach.oneshot _ :: rest => repeatingIds rest

/-- The ids attached by `attachOneshotEvent`, in call order. -/
def oneshotIds : List Attach → List EventIdType
  | [] => []
  | Attach.repeating _ :: rest => oneshotIds rest
  | Attach.oneshot id :: rest => id :: oneshotIds rest

/-- Sample event system without state: every activation answers `alive`; the invalid id
is `0`. -/
def constEventEnv (alive : Bool) : EventEnv Unit where
  invalidEventId := 0
  activateEvent := fun s _ => (s, alive)

/-- Sample collaborators without state: every activation answers `alive`, every
`insertModificationRange` answers `result`. -/
def constEnv (alive : Bool) (result : InsertResult) : Env Unit where
  toEventEnv := constEventEnv alive
  executeActiveEventsImmediately := fun s => s
  insertModificationRange := fun s _ _ _ _ => (s, result)
  reset := fun s _ _ => s

/-- The initial machine of the sample collaborators: nothing called yet. -/
def emptyMachine : Machine Unit :=
  { ext := (), log := [] }

/-- A sample world over the stateless sample collaborators: the observed value holds 0, the
container is empty, nothing is attached and nothing has been called. -/
def emptyWorld : World Unit Nat Nat :=
  { machine := emptyMachine,
    value := { attachedEvents_ := [], attachedOneshotEvents_ := [], contained_ := 0 },
    container := { attachedEvents_ := [], attachedOneshotEvents_ := [], contained_ := [] } }

/-! ## Attachment counts and activation outcomes -/

/-- `attachedEventCount()`: `attachedEvents_.size()`. -/
def ObservedBase.attachedEventCount (o : ObservedBase) : Nat :=
  o.attachedEvents_.length

/-- `attachedOneshotEventCount()`: `attachedOneshotEvents_.size()`. -/
def ObservedBase.attachedOneshotEventCount (o : ObservedBase) : Nat :=
  o.attachedOneshotEvents_.length

/-- `totalAttachedEventCount()`: the sum of the two sizes. -/
def ObservedBase.totalAttachedEventCount (o : ObservedBase) : Nat :=
  o.attachedEvents_.length + o.attachedOneshotEvents_.length

/-- The answers of the successive `activateEvent` calls of the first loop of `update`, in
list order: `true` for a handle that is not `nullptr`. -/
def activationOutcomes (env : EventEnv S) : List EventIdType → Machine S → List Bool
  | [], _ => []
  | event :: rest, m =>
    (Machine.activateEvent env m event).2
      :: activationOutcomes env rest (Machine.activateEvent env m event).1

/-- Sample event system without state in which the events with an odd id are alive; the
invalid id is `0`. -/
def oddAliveEventEnv : EventEnv Unit where
  invalidEventId := 0
  activateEvent := fun s id => (s, decide (id % 2 = 1))

/-! ## Bulk operations of the observed container -/

/-- The container's `operator=(T&& t)`: `contained_ = t`, `rangeContext_.reset(size, true)`,
`update()`. -/
def ObservedContainer.operatorAssign (env : Env S) (o : ObservedContainer β) (t : List β)
    (m : Machine S) : ObservedContainer β × Machine S :=
  let o1 : ObservedContainer β := { o with contained_ := t }
  ObservedContainer.update env o1 false (Machine.reset env m o1.contained_.length true)

/-- `assign(count, value)`: `count` copies of `value`, then reset and `update()`. -/
def ObservedContainer.assignCount (env : Env S) (o : ObservedContainer β) (count : Nat)
    (value : β) (m : Machine S) : ObservedContainer β × Machine S :=
  let o1 : ObservedContainer β := { o with contained_ := List.replicate count value }
  ObservedContainer.update env o1 false (Machine.reset env m o1.contained_.length true)

/-- `assign(first, last)`: the elements of the iterator range, then reset and `update()`. -/
def ObservedContainer.assignRange (env : Env S) (o : ObservedContainer β) (range : List β)
    (m : Machine S) : ObservedContainer β × Machine S :=
  let o1 : ObservedContainer β := { o with contained_ := range }
  ObservedContainer.update env o1 false (Machine.reset env m o1.contained_.length true)

/-- `assign(ilist)`: the elements of the initializer list, then reset and `update()`. -/
def ObservedContainer.assignList (env : Env S) (o : ObservedContainer β) (ilist : List β)
    (m : Machine S) : ObservedContainer β × Machine S :=
  let o1 : ObservedContainer β := { o with contained_ := ilist }
  ObservedContainer.update env o1 false (Machine.reset env m o1.contained_.length true)

/-- `clear()`: `contained_.clear()`, `rangeContext_.reset(0, true)`, `update()`. -/
def ObservedContainer.clear (env : Env S) (o : ObservedContainer β) (m : Machine S) :
    ObservedContainer β × Machine S :=
  let o1 : ObservedContainer β := { o with contained_ := [] }
  ObservedContainer.update env o1 false (Machine.reset env m 0 true)

/-- `swap(other)`: exchanges the contents with `other`, then reset to the new size and
`update()`.  The second component is `other` after the call. -/
def ObservedContainer.swap (env : Env S) (o : ObservedContainer β) (other : List β)
    (m : Machine S) : (ObservedContainer β × Machine S) × List β :=
  let o1 : ObservedContainer β := { o with contained_ := other }
  (ObservedContainer.update env o1 false (Machine.reset env m o1.contained_.length true),
   o.contained_)

/-- The state of the collaborators after `n` successive calls of `insertModificationRange`
with the same arguments. -/
def afterInsertCalls (env : Env S) (size low high : Nat) (type : RangeStateType) :
    Nat → S → S
  | 0, s => s
  | n + 1, s =>
    afterInsertCalls env size low high type n
      (env.insertModificationRange s size low high type).1

/-! ## The modification proxy, with notifications that may throw -/

/-- An event system whose `activateEvent` may throw: `Except.error s` is a call that threw
and left the collaborators in state `s`. -/
structure ThrowingEventEnv (S : Type) where
  invalidEventId : EventIdType
  activateEvent : S → EventIdType → Except S (S × Bool)

/-- An event system that never throws, seen as one that may. -/
def EventEnv.toThrowing (env : EventEnv S) : ThrowingEventEnv S where
  invalidEventId := env.invalidEventId
  activateEvent := fun s id => Except.ok (env.activateEvent s id)

/-- The call `globalEventContext.activateEvent(id)` when it may throw. -/
def Machine.activateEventThrowing (env : ThrowingEventEnv S) (m : Machine S)
    (id : EventIdType) : Except (Machine S) (Machine S × Bool) :=
  match env.activateEvent m.ext id with
  | Except.ok r => Except.ok ({ ext := r.1, log := m.log ++ [Call.activateEvent id] }, r.2)
  | Except.error s => Except.error { ext := s, log := m.log ++ [Call.activateEvent id] }

/-- First loop of `update` when an activation may throw: the exception leaves the loop with
the entries visited so far overwritten as usual and the remaining entries untouched. -/
def activateAttachedThrowing (env : ThrowingEventEnv S) :
    List EventIdType → Machine S →
      Except (List EventIdType × Machine S) (List EventIdType × Machine S)
  | [], m => Except.ok ([], m)
  | event :: rest, m =>
    match Machine.activateEventThrowing env m event with
    | Except.error m1 => Except.error (event :: rest, m1)
    | Except.ok r =>
      match activateAttachedThrowing env rest r.1 with
      | Except.ok tail =>
        Except.ok ((if r.2 then event else env.invalidEventId) :: tail.1, tail.2)
      | Except.error tail =>
        Except.error ((if r.2 then event else env.invalidEventId) :: tail.1, tail.2)

/-- Second loop of `update` when an activation may throw. -/
def activateOneshotThrowing (env : ThrowingEventEnv S) :
    List EventIdType → Machine S → Except (Machine S) (Machine S)
  | [], m => Except.ok m
  | event :: rest, m =>
    match Machine.activateEventThrowing env m event with
    | Except.error m1 => Except.error m1
    | Except.ok r => activateOneshotThrowing env rest r.1

/-- `ObservedBase::update` when an activation may throw: an exception skips the rest of the
function, so the one-shot list is not cleared and the invalid entries are not erased. -/
def ObservedBase.updateThrowing (env : ThrowingEventEnv S) (o : ObservedBase) (m : Machine S) :
    Except (ObservedBase × Machine S) (ObservedBase × Machine S) :=
  match activateAttachedThrowing env o.attachedEvents_ m with
  | Except.error r => Except.error ({ o with attachedEvents_ := r.1 }, r.2)
  | Except.ok r =>
    match activateOneshotThrowing env o.attachedOneshotEvents_ r.2 with
    | Except.error m2 => Except.error ({ o with attachedEvents_ := r.1 }, m2)
    | Except.ok m2 =>
      Except.ok ({ attachedEvents_ := r.1.filter (fun e => e ≠ env.invalidEventId),
                   attachedOneshotEvents_ := [] }, m2)

/-- The destructor of `ModificationProxy` for a `ModifiableObserved` that is not a container:
`try { observed_.update(true); } catch (...) { }`.  Both outcomes of `update` return
normally. -/
def ModificationProxy.release (env : ThrowingEventEnv S) (observed_ : ModifiableObserved α)
    (m : Machine S) : ModifiableObserved α × Machine S :=
  match observed_.toObservedBase.updateThrowing env m with
  | Except.ok r => ({ observed_ with toObservedBase := r.1 }, r.2)
  | Except.error r => ({ observed_ with toObservedBase := r.1 }, r.2)

/-- The destructor of `ModificationProxy` for an `ObservedContainer`: `update(true)` is the
override of the container, which first calls `rangeContext_.reset(size, true)` with the
current size (`reset` stands for that operation) and then `ObservedBase::update`. -/
def ModificationProxy.releaseContainer (env : ThrowingEventEnv S) (reset : S → Nat → Bool → S)
    (observed_ : ObservedContainer β) (m : Machine S) : ObservedContainer β × Machine S :=
  ModificationProxy.release env observed_
    { ext := reset m.ext observed_.contained_.length true,
      log := m.log ++ [Call.reset observed_.contained_.length true] }

/-- Sample event system in which the activation of the id `13` throws and every other
activation returns a handle; the invalid id is `0`. -/
def throwingEventEnv : ThrowingEventEnv Unit where
  invalidEventId := 0
  activateEvent := fun s id => if id = 13 then Except.error s else Except.ok (s, true)

/-! ## Stable elements (`frontend/utility/stabilize.hpp`, `stabilize.cpp`) -/

/-- `StableElement`: the held element (`stableElement_`, possibly null) and the flag
`reset_`. -/
structure StableElement where
  stableElement_ : Option Element
  reset_ : Bool

/-- `StableElement::reset()`: `reset_ = true;`. -/
def StableElement.reset (stableElement : StableElement) : StableElement :=
  { stableElement with reset_ := true }

/-- What one invocation of the renderer returned by `stabilize` calls, in order: the
creation of the div element, the encapsulated renderer (on the element with the given
handle), the renderer of the slot descriptor, the renderer `nil()`, and calls on native
handles and event clearers. -/
inductive RenderCall
  | makeElement (val : Val)
  | encapsulatedRenderer (val : Val)
  | slot
  | nil
  | dom (call : DomCall)
  deriving DecidableEq, Repr

/-- The renderers that the renderer returned by `stabilize` invokes on `(actualParent, gen)`
and whose code is not embedded, given by what they do in one invocation: `div` is the handle
created for `HtmlElement{"div"}`, `encapsulatedRenderer` is the effect of
`replaceElement(encapsulatedRenderer)` on the element it is called on, `slot` is the element
returned by rendering `HtmlElement{"stablerror_slot"}` in the actual parent, and `nil` is
what `nil()(actualParent, gen)` returns. -/
structure RenderEnv where
  div : Val
  encapsulatedRenderer : Element → Element × List DomCall
  slot : Element
  nil : Option Element

/-- One invocation of the renderer returned by `stabilize(stableElement,
encapsulatedRenderer)`.  If `reset_` is set or no element is held, the flag is cleared, a new
div element is made and stored (which releases the element held before), the encapsulated
renderer replaces it, and the slot rendered in the actual parent is slotted for it;
otherwise `nil()` is rendered.  The result is the stable element afterwards, the returned
element and the calls made. -/
def stabilize (parentOf : Val → Option Val) (env : RenderEnv) (stableElement : StableElement) :
    StableElement × Option Element × List RenderCall :=
  if stableElement.reset_ || stableElement.stableElement_.isNone then
    let made := (Element.new env.div).setup { attributes := [] }
    let released :=
      match stableElement.stableElement_ with
      | none => []
      | some old => old.destructor parentOf
    let replaced := env.encapsulatedRenderer made.1
    let slotted := env.slot.slotFor parentOf replaced.1
    ({ stableElement_ := some replaced.1, reset_ := false },
     some slotted.1,
     [RenderCall.makeElement env.div] ++ released.map RenderCall.dom
       ++ [RenderCall.encapsulatedRenderer env.div] ++ replaced.2.map RenderCall.dom
       ++ [RenderCall.slot] ++ slotted.2.map RenderCall.dom)
  else
    (stableElement, env.nil, [RenderCall.nil])

/-- A sample render environment: the div gets handle 10, the encapsulated renderer replaces
the handle of the element by 11, the slot has handle 12, `nil()` returns no element. -/
def sampleRenderEnv : RenderEnv where
  div := 10
  encapsulatedRenderer := fun e =>
    (e.replaceElementImpl (fun _ => none) { attributes := [] } 11)
  slot := Element.new 12
  nil := none

/-! ## Further container edits, reference wrappers and arithmetic operators -/

/-- `emplace(pos, args...)` with `distance = pos - cbegin()`: constructs one element (`value`)
from the `argCount = sizeof...(Args)` arguments in front of the element at `distance`, then
`insertRangeChecked(distance, distance + sizeof...(Args), Insert)`. -/
def ObservedContainer.emplace (env : Env S) (o : ObservedContainer β) (distance argCount : Nat)
    (value : β) (m : Machine S) : ObservedContainer β × Machine S :=
  let o1 : ObservedContainer β :=
    { o with contained_ := o.contained_.take distance ++ value :: o.contained_.drop distance }
  ObservedContainer.insertRangeChecked env o1 distance (distance + argCount)
    RangeStateType.Insert m

/-- `insert(pos, count, value)`: inserts `count` copies of `value` at `distance`, then
`insertRangeChecked(distance, distance + count, Insert)`. -/
def ObservedContainer.insertCount (env : Env S) (o : ObservedContainer β) (distance count : Nat)
    (value : β) (m : Machine S) : ObservedContainer β × Machine S :=
  let o1 : ObservedContainer β :=
    { o with contained_ :=
        o.contained_.take distance ++ List.replicate count value
          ++ o.contained_.drop distance }
  ObservedContainer.insertRangeChecked env o1 distance (distance + count)
    RangeStateType.Insert m

/-- `insert(pos, first, last)`: inserts the elements of the iterator range at `distance`,
then `insertRangeChecked(distance, distance + std::distance(first, last), Insert)`. -/
def ObservedContainer.insertRange (env : Env S) (o : ObservedContainer β) (distance : Nat)
    (range : List β) (m : Machine S) : ObservedContainer β × Machine S :=
  let o1 : ObservedContainer β :=
    { o with contained_ := o.contained_.take distance ++ range ++ o.contained_.drop distance }
  ObservedContainer.insertRangeChecked env o1 distance (distance + range.length)
    RangeStateType.Insert m

/-- `insert(pos, ilist)`: inserts the elements of the initializer list at `distance`, then
`insertRangeChecked(distance, distance + ilist.size(), Insert)`. -/
def ObservedContainer.insertList (env : Env S) (o : ObservedContainer β) (distance : Nat)
    (ilist : List β) (m : Machine S) : ObservedContainer β × Machine S :=
  let o1 : ObservedContainer β :=
    { o with contained_ := o.contained_.take distance ++ ilist ++ o.contained_.drop distance }
  ObservedContainer.insertRangeChecked env o1 distance (distance + ilist.length)
    RangeStateType.Insert m

/-- `erase(first, last)` for the iterators at the positions `first ≤ last ≤ size()`: removes
the elements in between, then
`insertRangeChecked(distance, distance + std::distance(first, last), Erase)` with
`distance = first - cbegin()`. -/
def ObservedContainer.eraseRange (env : Env S) (o : ObservedContainer β) (first last : Nat)
    (m : Machine S) : ObservedContainer β × Machine S :=
  let o1 : ObservedContainer β :=
    { o with contained_ := o.contained_.take first ++ o.contained_.drop last }
  ObservedContainer.insertRangeChecked env o1 first (first + (last - first))
    RangeStateType.Erase m

/-- `Observed<std::basic_string>::erase(index, count)` for `index ≤ size()`: the string
removes `min(count, size() - index)` characters from `index` on, then
`insertRangeChecked(index, sizeBefore, Erase)`. -/
def ObservedString.erase (env : Env S) (o : ObservedContainer β) (index count : Nat)
    (m : Machine S) : ObservedContainer β × Machine S :=
  let sizeBefore := o.contained_.length
  let o1 : ObservedContainer β :=
    { o with contained_ :=
        o.contained_.take index
          ++ o.contained_.drop (index + min count (sizeBefore - index)) }
  ObservedContainer.insertRangeChecked env o1 index sizeBefore RangeStateType.Erase m

/-- A `ReferenceWrapper` of a container: the recorded position `pos_` and the index of the
element that the reference `ref_` is bound to. -/
structure ReferenceWrapper where
  pos_ : Nat
  ref_ : Nat
  deriving DecidableEq, Repr

/-- `IteratorWrapper::operator*()` of the iterator that is `steps` past `begin()`, or past
`rbegin()` for a reverse iterator: the wrapper gets the position `it_ - begin()`, or
`it_ - rbegin()`, and the reference `*it_`, which for a reverse iterator is the element
`size() - 1 - steps`. -/
def IteratorWrapper.deref (reverse : Bool) (owner : ObservedContainer β) (steps : Nat) :
    ReferenceWrapper :=
  if reverse then
    { pos_ := steps, ref_ := owner.contained_.length - 1 - steps }
  else
    { pos_ := steps, ref_ := steps }

/-- `ReferenceWrapper::operator=(T&& ref)` on an arbitrary wrapper: assigns through `ref_`,
then `owner_->insertRangeChecked(pos_, pos_, Modify)`. -/
def ReferenceWrapper.operatorAssign (env : Env S) (owner : ObservedContainer β)
    (w : ReferenceWrapper) (ref : β) (m : Machine S) : ObservedContainer β × Machine S :=
  let o1 : ObservedContainer β := { owner with contained_ := owner.contained_.set w.ref_ ref }
  ObservedContainer.insertRangeChecked env o1 w.pos_ w.pos_ RangeStateType.Modify m

/-- `operator+=(U const& rhs)`: `this->contained_ += rhs; return *this;`. -/
def ModifiableObserved.operatorPlusAssign {γ : Type} [HAdd α γ α] (o : ModifiableObserved α)
    (rhs : γ) : ModifiableObserved α :=
  { o with contained_ := o.contained_ + rhs }

/-- `operator-=(U const& rhs)`: `this->contained_ -= rhs; return *this;`. -/
def ModifiableObserved.operatorMinusAssign {γ : Type} [HSub α γ α] (o : ModifiableObserved α)
    (rhs : γ) : ModifiableObserved α :=
  { o with contained_ := o.contained_ - rhs }

/-- The prefix `operator++` and `operator--` of a `ModifiableObserved`: the contained value
is stepped (`step` stands for `++` or `--` of the contained type), then
`observedValue.update()`. -/
def ModifiableObserved.operatorPrefixStep (env : EventEnv S) (step : α → α)
    (observedValue : ModifiableObserved α) (m : Machine S) :
    ModifiableObserved α × Machine S :=
  ModifiableObserved.update env { observedValue with contained_ := step observedValue.contained_ }
    m

/-- The postfix `operator++` and `operator--`: as the prefix forms, and the value held
before is returned. -/
def ModifiableObserved.operatorPostfixStep (env : EventEnv S) (step : α → α)
    (observedValue : ModifiableObserved α) (m : Machine S) :
    (ModifiableObserved α × Machine S) × α :=
  (ModifiableObserved.update env
      { observedValue with contained_ := step observedValue.contained_ } m,
   observedValue.contained_)

/-! ## Combinator bindings and child insertion -/

/-- `Attribute<_, ObservedValueCombinatorWithGenerator<...>>::createEvent`: one call of
`registerEvent`, then `combinator_.attachEvent(eventId)`.  The combinator class is declared
in `observed_value_combinator.hpp`, which is not embedded; its `attachEvent` is the
parameter `attachEvent` over an arbitrary combinator state. -/
def combinatorCreateEvent {C : Type} (attachEvent : C → EventIdType → C)
    (registry : EventRegistry) (combinator_ : C) (element : Nat) : EventRegistry × C :=
  let r := registry.registerEvent element
  (r.1, attachEvent combinator_ r.2)

/-- A sample combinator state: the attachment lists of its constituent observed values;
attaching an event attaches the id to every constituent. -/
def attachToConstituents (constituents : List ObservedBase) (eventId : EventIdType) :
    List ObservedBase :=
  constituents.map (fun o => o.attachEvent eventId)

/-- `Element::makeElement(element)`: a new element around the created handle `val`, set up
with the descriptor. -/
def Element.makeElement (val : Val) (element : HtmlElement) : Element :=
  ((Element.new val).setup element).1

/-- The two native calls that put a new child handle into the tree. -/
inductive NativeInsertion
  | appendChild (child : Val)
  | insertBefore (child reference : Val)
  deriving DecidableEq, Repr

/-- `appendElement(element)`: makes the element, `element_.call("appendChild", ...)`, and
`children_.emplace_back`. -/
def Element.appendElement (e : Element) (element : HtmlElement) (val : Val) :
    Element × NativeInsertion :=
  (Element.mk e.val e.destroy_ (e.children_ ++ [Element.makeElement val element]) e.unsetup_,
   NativeInsertion.appendChild val)

/-- `insert(iterator where, element)` for the iterator at position `pos ≤ childCount()`:
appends if the iterator is `end()`, otherwise makes the element, calls
`insertBefore(new handle, handle of *where)` and `children_.insert(where, ...)`. -/
def Element.insertIterator (e : Element) (pos : Nat) (element : HtmlElement) (val : Val) :
    Element × NativeInsertion :=
  match e.children_.drop pos with
  | [] => e.appendElement element val
  | child :: _ =>
    (Element.mk e.val e.destroy_
        (e.children_.take pos ++ Element.makeElement val element :: e.children_.drop pos)
        e.unsetup_,
     NativeInsertion.insertBefore val child.val)

/-- `insert(std::size_t where, element)`: appends if `where >= children_.size()`, otherwise
`insert(begin() + where, element)`. -/
def Element.insert (e : Element) (pos : Nat) (element : HtmlElement) (val : Val) :
    Element × NativeInsertion :=
  if pos ≥ e.children_.length then
    e.appendElement element val
  else
    e.insertIterator pos element val

/-- The native sibling order after `insertBefore(child, reference)` for a handle `child` that
is not yet in the tree: the child comes directly in front of the reference; the call fails
(none) if the reference is not among the siblings. -/
def insertBeforeSibling (child reference : Val) : List Val → Option (List Val)
  | [] => none
  | s :: rest =>
    if s = reference then
      some (child :: s :: rest)
    else
      (insertBeforeSibling child reference rest).map (fun l => s :: l)

/-- The native sibling order of a parent after a native insertion of a handle that is not
yet in the tree, as the DOM defines the two calls. -/
def NativeInsertion.apply (siblings : List Val) : NativeInsertion → Option (List Val)
  | NativeInsertion.appendChild child => some (siblings ++ [child])
  | NativeInsertion.insertBefore child reference => insertBeforeSibling child reference siblings

/-- An edit handed to the range context: the arguments of one call of
`insertModificationRange`. -/
structure RecordedEdit where
  size : Nat
  low : Nat
  high : Nat
  type : RangeStateType
  deriving DecidableEq, Repr

/-- The edits handed to the range context by the calls of a call log, in call order. -/
def recordedEdits : List Call → List RecordedEdit
  | [] => []
  | Call.insertModificationRange size low high type :: rest =>
    { size := size, low := low, high := high, type := type } :: recordedEdits rest
  | _ :: rest => recordedEdits rest

/-- A sample observed container over the stateless sample collaborators: it holds 10 and 20
and has the event 7 attached. -/
def sampleContainer : ObservedContainer Nat :=
  { attachedEvents_ := [7], attachedOneshotEvents_ := [], contained_ := [10, 20] }

/-- The range context of the samples below: it answers Final to every edit. -/
def finalEnv : Env Unit := constEnv true InsertResult.Final

/-! ## Call-log lemmas -/

theorem activateAttached_log (env : EventEnv S) (l : List EventIdType) (m : Machine S) :
    (activateAttached env l m).2.log = m.log ++ l.map Call.activateEvent := by
  induction l generalizing m with
  | nil => simp [activateAttached]
  | cons e rest ih => simp [activateAttached, ih, Machine.activateEvent]

theorem activateOneshot_log (env : EventEnv S) (l : List EventIdType) (m : Machine S) :
    (activateOneshot env l m).log = m.log ++ l.map Call.activateEvent := by
  induction l generalizing m with
  | nil => simp [activateOneshot]
  | cons e rest ih => simp [activateOneshot, ih, Machine.activateEvent]

theorem observedBase_update_log (env : EventEnv S) (o : ObservedBase) (m : Machine S) :
    (o.update env m).2.log
      = m.log ++ (o.attachedEvents_ ++ o.attachedOneshotEvents_).map Call.activateEvent := by
  simp [ObservedBase.update, activateAttached_log, activateOneshot_log]

theorem modifiableObserved_update_log (env : EventEnv S) (o : ModifiableObserved α) (m : Machine S) :
    (o.update env m).2.log
      = m.log ++ (o.attachedEvents_ ++ o.attachedOneshotEvents_).map Call.activateEvent := by
  simp [ModifiableObserved.update, observedBase_update_log]

theorem flushCount_append (l₁ l₂ : List Call) :
    flushCount (l₁ ++ l₂) = flushCount l₁ + flushCount l₂ := by
  simp [flushCount]

theorem flushCount_map_activateEvent (ids : List EventIdType) :
    flushCount (ids.map Call.activateEvent) = 0 := by
  induction ids with
  | nil => rfl
  | cons e rest ih =>
    simp only [flushCount, List.map_cons] at ih ⊢
    rw [List.count_cons_of_ne (by simp)]
    exact ih

theorem insertCallCount_append (l₁ l₂ : List Call) :
    insertCallCount (l₁ ++ l₂) = insertCallCount l₁ + insertCallCount l₂ := by
  simp [insertCallCount]

theorem insertCallCount_map_activateEvent (ids : List EventIdType) :
    insertCallCount (ids.map Call.activateEvent) = 0 := by
  induction ids with
  | nil => rfl
  | cons e rest ih =>
    simp only [insertCallCount, List.map_cons] at ih ⊢
    rw [List.countP_cons_of_neg]
    · exact ih
    · simp [Call.isInsertModificationRange]

theorem insertCallCount_cons_insert (size low high : Nat) (type : RangeStateType)
    (l : List Call) :
    insertCallCount (Call.insertModificationRange size low high type :: l)
      = insertCallCount l + 1 := by
  simp [insertCallCount, Call.isInsertModificationRange]

theorem insertCallCount_cons_flush (l : List Call) :
    insertCallCount (Call.executeActiveEventsImmediately :: l) = insertCallCount l := by
  simp [insertCallCount, Call.isInsertModificationRange]

theorem insertCallCount_cons_reset (size : Nat) (flag : Bool) (l : List Call) :
    insertCallCount (Call.reset size flag :: l) = insertCallCount l := by
  simp [insertCallCount, Call.isInsertModificationRange]

theorem insertCallCount_nil : insertCallCount [] = 0 := rfl

theorem observedContainer_update_false (env : Env S) (o : ObservedContainer α) (m : Machine S) :
    ObservedContainer.update env o false m = ModifiableObserved.update env.toEventEnv o m := by
  simp [ObservedContainer.update]

/-- Each run of `doInsert` started with `retries ≤ 3` calls `insertModificationRange` at
least once and at most `4 - retries` times. -/
theorem doInsert_insertCallCount (env : Env S) (low high : Nat) (type : RangeStateType) :
    ∀ (k retries : Nat) (o : ObservedContainer α) (m : Machine S), retries + k = 3 →
      insertCallCount m.log + 1 ≤ insertCallCount (doInsert env low high type retries o m).2.log ∧
      insertCallCount (doInsert env low high type retries o m).2.log
        ≤ insertCallCount m.log + (k + 1) := by
  intro k
  induction k with
  | zero =>
    intro retries o m h
    have h3 : ¬ retries < 3 := by omega
    rw [doInsert]
    cases hr : (Machine.insertModificationRange env m o.contained_.length low high type).2 <;>
      simp [hr, h3, observedContainer_update_false, modifiableObserved_update_log,
        Machine.executeActiveEventsImmediately, Machine.reset, Machine.insertModificationRange,
        insertCallCount_append, insertCallCount_map_activateEvent, insertCallCount_cons_insert,
        insertCallCount_cons_flush, insertCallCount_cons_reset, insertCallCount_nil]
  | succ k ih =>
    intro retries o m h
    have h3 : retries < 3 := by omega
    rw [doInsert]
    cases hr : (Machine.insertModificationRange env m o.contained_.length low high type).2
    · simp [hr, observedContainer_update_false, modifiableObserved_update_log,
        Machine.executeActiveEventsImmediately, Machine.insertModificationRange,
        insertCallCount_append, insertCallCount_map_activateEvent, insertCallCount_cons_insert,
        insertCallCount_cons_flush, insertCallCount_nil]
    · simp only [hr, h3, if_true]
      have := ih (retries + 1) o
        (Machine.insertModificationRange env m o.contained_.length low high type).1 (by omega)
      simp only [Machine.insertModificationRange, insertCallCount_append,
        insertCallCount_cons_insert, insertCallCount_nil] at this ⊢
      omega
    · simp [hr, observedContainer_update_false, modifiableObserved_update_log,
        Machine.insertModificationRange,
        insertCallCount_append, insertCallCount_map_activateEvent, insertCallCount_cons_insert,
        insertCallCount_nil]

theorem activations_append (l₁ l₂ : List Call) :
    activations (l₁ ++ l₂) = activations l₁ ++ activations l₂ := by
  induction l₁ with
  | nil => rfl
  | cons c rest ih => cases c <;> simp [activations, ih]

theorem activations_map_activateEvent (ids : List EventIdType) :
    activations (ids.map Call.activateEvent) = ids := by
  induction ids with
  | nil => rfl
  | cons e rest ih => simp [activations, ih]

theorem foldl_apply_attachedEvents (calls : List Attach) (o : ObservedBase) :
    (calls.foldl Attach.apply o).attachedEvents_ = o.attachedEvents_ ++ repeatingIds calls := by
  induction calls generalizing o with
  | nil => simp [repeatingIds]
  | cons c rest ih =>
    cases c <;>
      simp [ih, Attach.apply, repeatingIds, ObservedBase.attachEvent,
        ObservedBase.attachOneshotEvent]

theorem foldl_apply_attachedOneshotEvents (calls : List Attach) (o : ObservedBase) :
    (calls.foldl Attach.apply o).attachedOneshotEvents_
      = o.attachedOneshotEvents_ ++ oneshotIds calls := by
  induction calls generalizing o with
  | nil => simp [oneshotIds]
  | cons c rest ih =>
    cases c <;>
      simp [ih, Attach.apply, oneshotIds, ObservedBase.attachEvent,
        ObservedBase.attachOneshotEvent]

theorem modifiableObserved_update_contained (env : EventEnv S) (o : ModifiableObserved α)
    (m : Machine S) : (o.update env m).1.contained_ = o.contained_ := rfl

theorem flushCount_cons_flush (l : List Call) :
    flushCount (Call.executeActiveEventsImmediately :: l) = flushCount l + 1 := by
  simp [flushCount]

theorem flushCount_cons_insert (size low high : Nat) (type : RangeStateType) (l : List Call) :
    flushCount (Call.insertModificationRange size low high type :: l) = flushCount l := by
  simp [flushCount]

theorem flushCount_cons_reset (size : Nat) (flag : Bool) (l : List Call) :
    flushCount (Call.reset size flag :: l) = flushCount l := by
  simp [flushCount]

theorem flushCount_nil : flushCount [] = 0 := rfl

/-- A run of `doInsert` started with `retries ≤ 3` flushes at most once. -/
theorem doInsert_flushCount (env : Env S) (low high : Nat) (type : RangeStateType) :
    ∀ (k retries : Nat) (o : ObservedContainer α) (m : Machine S), retries + k = 3 →
      flushCount m.log ≤ flushCount (doInsert env low high type retries o m).2.log ∧
      flushCount (doInsert env low high type retries o m).2.log ≤ flushCount m.log + 1 := by
  intro k
  induction k with
  | zero =>
    intro retries o m h
    have h3 : ¬ retries < 3 := by omega
    rw [doInsert]
    cases hr : (Machine.insertModificationRange env m o.contained_.length low high type).2 <;>
      simp [hr, h3, observedContainer_update_false, modifiableObserved_update_log,
        Machine.executeActiveEventsImmediately, Machine.reset, Machine.insertModificationRange,
        flushCount_append, flushCount_map_activateEvent, flushCount_cons_insert,
        flushCount_cons_flush, flushCount_cons_reset, flushCount_nil]
  | succ k ih =>
    intro retries o m h
    have h3 : retries < 3 := by omega
    rw [doInsert]
    cases hr : (Machine.insertModificationRange env m o.contained_.length low high type).2
    · simp [hr, observedContainer_update_false, modifiableObserved_update_log,
        Machine.executeActiveEventsImmediately, Machine.insertModificationRange,
        flushCount_append, flushCount_map_activateEvent, flushCount_cons_insert,
        flushCount_cons_flush, flushCount_nil]
    · simp only [hr, h3, if_true]
      have := ih (retries + 1) o
        (Machine.insertModificationRange env m o.contained_.length low high type).1 (by omega)
      simp only [Machine.insertModificationRange, flushCount_append,
        flushCount_cons_insert, flushCount_nil] at this ⊢
      omega
    · simp [hr, observedContainer_update_false, modifiableObserved_update_log,
        Machine.insertModificationRange,
        flushCount_append, flushCount_map_activateEvent, flushCount_cons_insert,
        flushCount_nil]

theorem insertRangeChecked_flushCount_le (env : Env S) (o : ObservedContainer α)
    (low high : Nat) (type : RangeStateType) (m : Machine S) :
    flushCount (ObservedContainer.insertRangeChecked env o low high type m).2.log
      ≤ flushCount m.log + 1 :=
  (doInsert_flushCount env low high type 3 0 o m (by omega)).2

theorem insertRangeChecked_flushCount_final (env : Env S) (o : ObservedContainer α)
    (low high : Nat) (type : RangeStateType) (m : Machine S)
    (h : (env.insertModificationRange m.ext o.contained_.length low high type).2
      = InsertResult.Final) :
    flushCount (ObservedContainer.insertRangeChecked env o low high type m).2.log
      = flushCount m.log + 1 := by
  rw [ObservedContainer.insertRangeChecked, doInsert]
  simp [Machine.insertModificationRange, h, observedContainer_update_false,
    modifiableObserved_update_log, Machine.executeActiveEventsImmediately,
    flushCount_append, flushCount_map_activateEvent, flushCount_cons_insert,
    flushCount_cons_flush, flushCount_nil]

theorem insertRangeChecked_flushCount_other (env : Env S) (o : ObservedContainer α)
    (low high : Nat) (type : RangeStateType) (m : Machine S)
    (h : (env.insertModificationRange m.ext o.contained_.length low high type).2
      = InsertResult.Other) :
    flushCount (ObservedContainer.insertRangeChecked env o low high type m).2.log
      = flushCount m.log := by
  rw [ObservedContainer.insertRangeChecked, doInsert]
  simp [Machine.insertModificationRange, h, observedContainer_update_false,
    modifiableObserved_update_log,
    flushCount_append, flushCount_map_activateEvent, flushCount_cons_insert,
    flushCount_nil]

/-- The three operations of the observed value only append activations to the call log. -/
theorem mutation_run_value_log [DecidableEq α] (env : Env S) (op : Mutation α β)
    (w : World S α β) (h : op.isValueMutation = true) :
    ∃ ids : List EventIdType,
      (op.run env w).machine.log = w.machine.log ++ ids.map Call.activateEvent := by
  cases op with
  | operatorAssign fundamental v =>
    by_cases hv : w.value.contained_ = v
    · cases fundamental
      · exact ⟨w.value.attachedEvents_ ++ w.value.attachedOneshotEvents_, by simp [Mutation.run, ModifiableObserved.operatorAssign,
          ModifiableObserved.assign, modifiableObserved_update_log]⟩
      · exact ⟨[], by simp [Mutation.run, ModifiableObserved.operatorAssign,
          ModifiableObserved.assignChecked, hv]⟩
    · cases fundamental
      · exact ⟨w.value.attachedEvents_ ++ w.value.attachedOneshotEvents_, by simp [Mutation.run, ModifiableObserved.operatorAssign,
          ModifiableObserved.assign, modifiableObserved_update_log]⟩
      · exact ⟨w.value.attachedEvents_ ++ w.value.attachedOneshotEvents_, by simp [Mutation.run, ModifiableObserved.operatorAssign,
          ModifiableObserved.assignChecked, hv, modifiableObserved_update_log]⟩
  | assignChecked v =>
    by_cases hv : w.value.contained_ = v
    · exact ⟨[], by simp [Mutation.run, ModifiableObserved.assignChecked, hv]⟩
    · exact ⟨w.value.attachedEvents_ ++ w.value.attachedOneshotEvents_, by simp [Mutation.run, ModifiableObserved.assignChecked, hv,
        modifiableObserved_update_log]⟩
  | modify f =>
    exact ⟨w.value.attachedEvents_ ++ w.value.attachedOneshotEvents_, by simp [Mutation.run, ModifiableObserved.modify,
      modifiableObserved_update_log]⟩
  | push_back _ => simp [Mutation.isValueMutation] at h
  | insert _ _ => simp [Mutation.isValueMutation] at h
  | erase _ => simp [Mutation.isValueMutation] at h
  | pop_back => simp [Mutation.isValueMutation] at h
  | resize _ _ => simp [Mutation.isValueMutation] at h
  | referenceAssign _ _ => simp [Mutation.isValueMutation] at h

theorem mutation_run_value_flushCount [DecidableEq α] (env : Env S) (op : Mutation α β)
    (w : World S α β) (h : op.isValueMutation = true) :
    flushCount (op.run env w).machine.log = flushCount w.machine.log := by
  obtain ⟨ids, e⟩ := mutation_run_value_log env op w h
  rw [e, flushCount_append, flushCount_map_activateEvent]
  rfl

theorem mutation_run_flushCount_le [DecidableEq α] (env : Env S) (op : Mutation α β)
    (w : World S α β) :
    flushCount (op.run env w).machine.log ≤ flushCount w.machine.log + 1 := by
  cases op with
  | operatorAssign fundamental v =>
    rw [mutation_run_value_flushCount env (Mutation.operatorAssign fundamental v) w rfl]; omega
  | assignChecked v =>
    rw [mutation_run_value_flushCount env (Mutation.assignChecked v) w rfl]; omega
  | modify f => rw [mutation_run_value_flushCount env (Mutation.modify f) w rfl]; omega
  | push_back _ => exact insertRangeChecked_flushCount_le env _ _ _ _ _
  | insert _ _ => exact insertRangeChecked_flushCount_le env _ _ _ _ _
  | erase _ => exact insertRangeChecked_flushCount_le env _ _ _ _ _
  | pop_back => exact insertRangeChecked_flushCount_le env _ _ _ _ _
  | resize count fillValue =>
    simp only [Mutation.run, ObservedContainer.resize]
    split <;> exact insertRangeChecked_flushCount_le env _ _ _ _ _
  | referenceAssign _ _ => exact insertRangeChecked_flushCount_le env _ _ _ _ _

theorem runHandler_value_flushCount [DecidableEq α] (env : Env S)
    (ops : List (Mutation α β)) :
    ∀ w : World S α β, (∀ op ∈ ops, Mutation.isValueMutation op = true) →
      flushCount (runHandler env ops w).machine.log = flushCount w.machine.log := by
  induction ops with
  | nil => intro w _; rfl
  | cons op rest ih =>
    intro w h
    have h1 := h op (by simp)
    have h2 : ∀ op' ∈ rest, Mutation.isValueMutation op' = true :=
      fun op' hm => h op' (by simp [hm])
    have := ih (op.run env w) h2
    simp only [runHandler, List.foldl_cons] at this ⊢
    rw [this, mutation_run_value_flushCount env op w h1]

theorem runEventClearers_eq (cs : List EventClearer) :
    runEventClearers cs = ((cs.filter (fun c => c.clear)).map (fun c => DomCall.clear c.id)) := by
  induction cs with
  | nil => rfl
  | cons c rest ih =>
    cases h : c.clear <;> simp [runEventClearers, h, ih]

theorem destroyFn_call_no_clear (parentOf : Val → Option Val) (d : DestroyFn) (val : Val) :
    ∀ c ∈ d.call parentOf val, DomCall.isClear c = false := by
  intro c hc
  cases d with
  | destroyByRemove =>
    simp [DestroyFn.call] at hc
    subst hc; rfl
  | destroyByParentChildRemoval =>
    simp only [DestroyFn.call] at hc
    cases hp : parentOf val with
    | none => simp [hp] at hc; subst hc; rfl
    | some parent => simp [hp] at hc; subst hc; rfl
  | doNotDestroy => simp [DestroyFn.call] at hc

mutual
theorem destructor_no_clear (parentOf : Val → Option Val) :
    ∀ e : Element, ∀ c ∈ e.destructor parentOf, DomCall.isClear c = false
  | Element.mk element_ destroy_ children_ unsetup_ => by
    intro c hc
    simp only [Element.destructor, List.mem_append] at hc
    cases hc with
    | inl h => exact destroyAll_no_clear parentOf children_ c h
    | inr h => exact destroyFn_call_no_clear parentOf destroy_ element_ c h
theorem destroyAll_no_clear (parentOf : Val → Option Val) :
    ∀ es : List Element, ∀ c ∈ destroyAll parentOf es, DomCall.isClear c = false
  | [] => by
    intro c hc
    simp [destroyAll] at hc
  | child :: rest => by
    intro c hc
    simp only [destroyAll, List.mem_append] at hc
    cases hc with
    | inl h => exact destructor_no_clear parentOf child c h
    | inr h => exact destroyAll_no_clear parentOf rest c h
end

theorem element_destructor_eq (parentOf : Val → Option Val) (e : Element) :
    e.destructor parentOf = destroyAll parentOf e.children_ ++ e.destroy_.call parentOf e.val := by
  cases e with
  | mk element_ destroy_ children_ unsetup_ =>
    simp [Element.destructor, Element.children_, Element.destroy_, Element.val]

theorem runUnsetup_eq (u : Option (List EventClearer)) :
    runUnsetup u
      = (((u.getD []).filter (fun c => c.clear)).map (fun c => DomCall.clear c.id)) := by
  cases u with
  | none => rfl
  | some cs => simp [runUnsetup, runEventClearers_eq]

theorem runHandler_flushCount_le [DecidableEq α] (env : Env S) (ops : List (Mutation α β)) :
    ∀ w : World S α β,
      flushCount (runHandler env ops w).machine.log
        ≤ flushCount w.machine.log + containerEditCount ops := by
  induction ops with
  | nil => intro w; exact Nat.le_refl _
  | cons op rest ih =>
    intro w
    have h := ih (op.run env w)
    simp only [runHandler, List.foldl_cons, containerEditCount] at h ⊢
    by_cases hv : op.isValueMutation = true
    · rw [mutation_run_value_flushCount env op w hv] at h
      simp only [hv, if_true]
      omega
    · have := mutation_run_flushCount_le env op w
      simp only [hv]
      simp only [Bool.false_eq_true, if_false]
      omega

/-! ## Registry lemmas -/

theorem mark_id (x : EventIdType) (ev : RegisteredEvent) : (ev.mark x).id = ev.id := by
  unfold RegisteredEvent.mark; split <;> rfl

theorem mark_element (x : EventIdType) (ev : RegisteredEvent) :
    (ev.mark x).element = ev.element := by
  unfold RegisteredEvent.mark; split <;> rfl

theorem mark_active_mono (x : EventIdType) (ev : RegisteredEvent) (h : ev.active = true) :
    (ev.mark x).active = true := by
  unfold RegisteredEvent.mark; split
  · rfl
  · exact h

theorem mark_active_self (x : EventIdType) (ev : RegisteredEvent) (h : ev.id = x) :
    (ev.mark x).active = true := by
  simp [RegisteredEvent.mark, h]

theorem markAll_mem (ids : List EventIdType) :
    ∀ (events : List RegisteredEvent) (ev' : RegisteredEvent), ev' ∈ markAll ids events →
      ∃ ev ∈ events, ev'.id = ev.id ∧ ev'.element = ev.element ∧
        (ev.active = true → ev'.active = true) ∧ (ev.id ∈ ids → ev'.active = true) := by
  induction ids with
  | nil =>
    intro events ev' h
    exact ⟨ev', h, rfl, rfl, id, by simp⟩
  | cons x rest ih =>
    intro events ev' h
    simp only [markAll, List.foldl_cons] at h
    obtain ⟨ev1, h1, e1, e2, e3, e4⟩ := ih (events.map (RegisteredEvent.mark x)) ev' h
    obtain ⟨ev, hev, rfl⟩ := List.mem_map.mp h1
    refine ⟨ev, hev, ?_, ?_, ?_, ?_⟩
    · rw [e1, mark_id]
    · rw [e2, mark_element]
    · intro ha
      exact e3 (mark_active_mono x ev ha)
    · intro hm
      rw [mark_id] at e4
      rcases List.mem_cons.mp hm with hx | hr
      · exact e3 (mark_active_self x ev hx)
      · exact e4 hr

theorem markAll_append (l₁ l₂ : List EventIdType) (events : List RegisteredEvent) :
    markAll (l₁ ++ l₂) events = markAll l₂ (markAll l₁ events) := by
  simp [markAll, List.foldl_append]

theorem activateAttached_registry (inv : EventIdType) (l : List EventIdType) :
    ∀ m : Machine EventRegistry,
      (activateAttached (registryEventEnv inv) l m).2.ext.events = markAll l m.ext.events := by
  induction l with
  | nil => intro m; rfl
  | cons e rest ih =>
    intro m
    simp only [activateAttached, ih]
    rfl

theorem activateOneshot_registry (inv : EventIdType) (l : List EventIdType) :
    ∀ m : Machine EventRegistry,
      (activateOneshot (registryEventEnv inv) l m).ext.events = markAll l m.ext.events := by
  induction l with
  | nil => intro m; rfl
  | cons e rest ih =>
    intro m
    simp only [activateOneshot, ih]
    rfl

/-- An entry that survives the first loop of `update` is the invalid id or an id of the list
that was registered when the loop started. -/
theorem activateAttached_mem (inv : EventIdType) (l : List EventIdType) :
    ∀ (m : Machine EventRegistry) (x : EventIdType),
      x ∈ (activateAttached (registryEventEnv inv) l m).1 →
      x = inv ∨ (x ∈ l ∧ ∃ ev ∈ m.ext.events, ev.id = x) := by
  induction l with
  | nil =>
    intro m x h
    simp [activateAttached] at h
  | cons e rest ih =>
    intro m x h
    simp only [activateAttached, List.mem_cons] at h
    rcases h with h | h
    · by_cases hr : (Machine.activateEvent (registryEventEnv inv) m e).2 = true
      · rw [if_pos hr] at h
        right
        refine ⟨by simp [h], ?_⟩
        simp only [Machine.activateEvent, registryEventEnv, EventRegistry.activateEvent,
          List.any_eq_true, beq_iff_eq] at hr
        obtain ⟨ev, hev, he⟩ := hr
        exact ⟨ev, hev, by rw [h, he]⟩
      · rw [if_neg hr] at h
        exact Or.inl h
    · rcases ih _ x h with h1 | ⟨h1, ev', hev', he'⟩
      · exact Or.inl h1
      · right
        refine ⟨by simp [h1], ?_⟩
        simp only [Machine.activateEvent, registryEventEnv, EventRegistry.activateEvent] at hev'
        obtain ⟨ev, hev, rfl⟩ := List.mem_map.mp hev'
        exact ⟨ev, hev, by rw [← he', mark_id]⟩

/-- The flush applies no user function for an expired element. -/
theorem flushEvents_userCalls (prefilter : Bool) (expired : Nat → Bool) (value : α)
    (events : List RegisteredEvent) :
    ∀ c ∈ (flushEvents prefilter expired value events).2, expired c.1 = false := by
  induction events with
  | nil => intro c h; simp [flushEvents] at h
  | cons ev rest ih =>
    intro c h
    simp only [flushEvents] at h
    by_cases ha : ev.active = true
    · by_cases hx : expired ev.element = true
      · cases prefilter <;>
          simp [ha, hx, attributeIsAlive, attributeCallback] at h <;> exact ih c h
      · have hx' : expired ev.element = false := by simpa using hx
        cases prefilter <;> simp [ha, hx', attributeIsAlive, attributeCallback] at h <;>
          rcases h with h | h
        · rw [h]; exact hx'
        · exact ih c h
        · rw [h]; exact hx'
        · exact ih c h
    · have ha' : ev.active = false := by simpa using ha
      simp [ha'] at h
      exact ih c h

/-- An entry that survives the flush comes from an entry that was inactive or whose
element has not expired. -/
theorem flushEvents_mem (prefilter : Bool) (expired : Nat → Bool) (value : α)
    (events : List RegisteredEvent) :
    ∀ ev' ∈ (flushEvents prefilter expired value events).1,
      ∃ ev ∈ events, ev'.id = ev.id ∧ ev'.element = ev.element ∧
        (ev.active = true → expired ev.element = false) := by
  induction events with
  | nil => intro ev' h; simp [flushEvents] at h
  | cons ev rest ih =>
    intro ev' h
    have lift : (∃ e ∈ rest, ev'.id = e.id ∧ ev'.element = e.element ∧
        (e.active = true → expired e.element = false)) →
        ∃ e ∈ ev :: rest, ev'.id = e.id ∧ ev'.element = e.element ∧
          (e.active = true → expired e.element = false) := by
      rintro ⟨e, he, p⟩
      exact ⟨e, List.mem_cons_of_mem _ he, p⟩
    simp only [flushEvents] at h
    by_cases ha : ev.active = true
    · by_cases hx : expired ev.element = true
      · cases prefilter <;>
          simp [ha, hx, attributeIsAlive, attributeCallback] at h <;> exact lift (ih ev' h)
      · have hx' : expired ev.element = false := by simpa using hx
        cases prefilter <;> simp [ha, hx', attributeIsAlive, attributeCallback] at h <;>
          rcases h with h | h
        · exact ⟨ev, by simp, by rw [h], by rw [h], fun _ => hx'⟩
        · exact lift (ih ev' h)
        · exact ⟨ev, by simp, by rw [h], by rw [h], fun _ => hx'⟩
        · exact lift (ih ev' h)
    · have ha' : ev.active = false := by simpa using ha
      simp [ha'] at h
      rcases h with h | h
      · exact ⟨ev, by simp, by rw [h], by rw [h], fun hh => by simp [ha'] at hh⟩
      · exact lift (ih ev' h)

theorem bindingWorld_assign_events (inv : EventIdType) (w : BindingWorld α) (v : α) :
    (w.assign inv v).machine.ext.events
      = markAll (w.observed.attachedEvents_ ++ w.observed.attachedOneshotEvents_)
          w.machine.ext.events := by
  simp [BindingWorld.assign, ModifiableObserved.assign, ModifiableObserved.update,
    ObservedBase.update, activateOneshot_registry, activateAttached_registry, markAll_append]

theorem bindingWorld_assign_mem (inv : EventIdType) (w : BindingWorld α) (v : α)
    (x : EventIdType) (h : x ∈ (w.assign inv v).observed.attachedEvents_) :
    x ∈ w.observed.attachedEvents_ ∧ ∃ ev ∈ w.machine.ext.events, ev.id = x := by
  simp only [BindingWorld.assign, ModifiableObserved.assign, ModifiableObserved.update,
    ObservedBase.update, List.mem_filter] at h
  obtain ⟨hm, hne⟩ := h
  rcases activateAttached_mem inv _ _ x hm with h1 | h1
  · simp [registryEventEnv, h1] at hne
  · exact h1

/-- After the element has been destroyed and the id has been activated by a mutation, the
flush leaves no registry entry with that id. -/
theorem bindingWorld_flush_drops (prefilter : Bool) (inv : EventIdType) (w : BindingWorld α)
    (element : Nat) (id : EventIdType) (v : α)
    (hown : ∀ ev ∈ w.machine.ext.events, ev.id = id → ev.element = element)
    (hatt : id ∈ w.observed.attachedEvents_) :
    ∀ ev ∈ (((w.destroyElement element).assign inv v).executeActiveEventsImmediately
        prefilter).machine.ext.events, ev.id ≠ id := by
  intro ev hev hid
  simp only [BindingWorld.executeActiveEventsImmediately] at hev
  obtain ⟨ev0, hev0, e1, e2, e3⟩ := flushEvents_mem _ _ _ _ ev hev
  rw [bindingWorld_assign_events] at hev0
  obtain ⟨ev00, hev00, f1, f2, _, f4⟩ := markAll_mem _ _ ev0 hev0
  have hid00 : ev00.id = id := by rw [← f1, ← e1, hid]
  have hel : ev0.element = element := by
    rw [f2]
    exact hown ev00 hev00 hid00
  have hact : ev0.active = true := by
    apply f4
    rw [hid00]
    exact List.mem_append_left _ hatt
  have := e3 hact
  rw [hel] at this
  simp [BindingWorld.assign, BindingWorld.destroyElement] at this

/-! ## Lemmas on the attachment lists -/

theorem activateAttached_eq_zip (env : EventEnv S) (l : List EventIdType) :
    ∀ m : Machine S,
      (activateAttached env l m).1
        = (l.zip (activationOutcomes env l m)).map
            (fun p => if p.2 then p.1 else env.invalidEventId) := by
  induction l with
  | nil => intro m; rfl
  | cons e rest ih =>
    intro m
    simp only [activateAttached, activationOutcomes, List.zip_cons_cons, List.map_cons]
    rw [ih]

theorem activationOutcomes_length (env : EventEnv S) (l : List EventIdType) :
    ∀ m : Machine S, (activationOutcomes env l m).length = l.length := by
  induction l with
  | nil => intro m; rfl
  | cons e rest ih => intro m; simp [activationOutcomes, ih]

/-- What `update` leaves in the repeating list: the entries whose activation returned a
handle and that are not the invalid id, in their old order. -/
theorem update_attachedEvents_general (env : EventEnv S) (o : ObservedBase) (m : Machine S) :
    (o.update env m).1.attachedEvents_
      = ((o.attachedEvents_.zip (activationOutcomes env o.attachedEvents_ m)).filter
          (fun p => p.2 && decide (p.1 ≠ env.invalidEventId))).map (fun p => p.1) := by
  simp only [ObservedBase.update, activateAttached_eq_zip]
  generalize o.attachedEvents_.zip (activationOutcomes env o.attachedEvents_ m) = ps
  induction ps with
  | nil => rfl
  | cons p rest ih =>
    rcases p with ⟨e, b⟩
    simp only [ne_eq, decide_not] at ih ⊢
    cases b
    · simp [List.filter_cons, ih]
    · by_cases he : e = env.invalidEventId
      · simp [List.filter_cons, he, ih]
      · simp [List.filter_cons, he, ih]

theorem activationOutcomes_invalid (env : EventEnv S)
    (hinv : ∀ s, (env.activateEvent s env.invalidEventId).2 = false) (l : List EventIdType) :
    ∀ (m : Machine S), ∀ p ∈ l.zip (activationOutcomes env l m),
      p.1 = env.invalidEventId → p.2 = false := by
  induction l with
  | nil => intro m p hp; simp [activationOutcomes] at hp
  | cons e rest ih =>
    intro m p hp he
    simp only [activationOutcomes, List.zip_cons_cons, List.mem_cons] at hp
    rcases hp with hp | hp
    · subst hp
      simp only at he
      subst he
      exact hinv m.ext
    · exact ih _ p hp he

theorem update_attachedEvents_sublist (env : EventEnv S) (o : ObservedBase) (m : Machine S) :
    (o.update env m).1.attachedEvents_.Sublist o.attachedEvents_ := by
  rw [update_attachedEvents_general]
  have h := (List.filter_sublist (p := fun p => p.2 && decide (p.1 ≠ env.invalidEventId))
    (o.attachedEvents_.zip (activationOutcomes env o.attachedEvents_ m))).map (fun p => p.1)
  have e : (o.attachedEvents_.zip (activationOutcomes env o.attachedEvents_ m)).map
      (fun p => p.1) = o.attachedEvents_ := by
    apply List.map_fst_zip
    rw [activationOutcomes_length]
  rw [e] at h
  exact h

/-- Whatever the range context answers, `doInsert` runs `update` exactly once on the
attachment lists it was given. -/
theorem doInsert_observed (env : Env S) (low high : Nat) (type : RangeStateType) :
    ∀ (k retries : Nat) (o : ObservedContainer α) (m : Machine S), 3 - retries = k →
      ∃ m' : Machine S,
        (doInsert env low high type retries o m).1
          = (ModifiableObserved.update env.toEventEnv o m').1 := by
  intro k
  induction k with
  | zero =>
    intro retries o m h
    have h3 : ¬ retries < 3 := by omega
    rw [doInsert]
    cases hr : (Machine.insertModificationRange env m o.contained_.length low high type).2
    · exact ⟨(Machine.insertModificationRange env m o.contained_.length low high type).1,
        by simp [hr, observedContainer_update_false]⟩
    · exact ⟨Machine.reset env
          (Machine.insertModificationRange env m o.contained_.length low high type).1
          o.contained_.length true,
        by simp only [hr, h3, if_false, observedContainer_update_false]⟩
    · exact ⟨(Machine.insertModificationRange env m o.contained_.length low high type).1,
        by simp [hr, observedContainer_update_false]⟩
  | succ k ih =>
    intro retries o m h
    have h3 : retries < 3 := by omega
    rw [doInsert]
    cases hr : (Machine.insertModificationRange env m o.contained_.length low high type).2
    · exact ⟨(Machine.insertModificationRange env m o.contained_.length low high type).1,
        by simp [hr, observedContainer_update_false]⟩
    · simp only [hr, h3, if_true]
      exact ih (retries + 1) o _ (by omega)
    · exact ⟨(Machine.insertModificationRange env m o.contained_.length low high type).1,
        by simp [hr, observedContainer_update_false]⟩

theorem insertRangeChecked_observed (env : Env S) (o : ObservedContainer α)
    (low high : Nat) (type : RangeStateType) (m : Machine S) :
    ∃ m' : Machine S,
      (ObservedContainer.insertRangeChecked env o low high type m).1.toObservedBase
        = (o.toObservedBase.update env.toEventEnv m').1 := by
  obtain ⟨m', h⟩ := doInsert_observed env low high type 3 0 o m rfl
  exact ⟨m', by rw [ObservedContainer.insertRangeChecked, h]; rfl⟩

/-- A mutation either leaves the attachment lists of the observed value alone or replaces
them by the result of one `update`. -/
theorem mutation_run_value_lists [DecidableEq α] (env : Env S) (op : Mutation α β)
    (w : World S α β) :
    (op.run env w).value.toObservedBase = w.value.toObservedBase ∨
      ∃ m' : Machine S,
        (op.run env w).value.toObservedBase
          = (w.value.toObservedBase.update env.toEventEnv m').1 := by
  cases op with
  | operatorAssign fundamental v =>
    by_cases hv : w.value.contained_ = v
    · cases fundamental
      · exact Or.inr ⟨w.machine, rfl⟩
      · exact Or.inl (by simp [Mutation.run, ModifiableObserved.operatorAssign,
          ModifiableObserved.assignChecked, hv])
    · cases fundamental
      · exact Or.inr ⟨w.machine, rfl⟩
      · exact Or.inr ⟨w.machine, by simp [Mutation.run, ModifiableObserved.operatorAssign,
          ModifiableObserved.assignChecked, hv, ModifiableObserved.update]⟩
  | assignChecked v =>
    by_cases hv : w.value.contained_ = v
    · exact Or.inl (by simp [Mutation.run, ModifiableObserved.assignChecked, hv])
    · exact Or.inr ⟨w.machine, by simp [Mutation.run, ModifiableObserved.assignChecked, hv,
        ModifiableObserved.update]⟩
  | modify f => exact Or.inr ⟨w.machine, rfl⟩
  | push_back _ => exact Or.inl rfl
  | insert _ _ => exact Or.inl rfl
  | erase _ => exact Or.inl rfl
  | pop_back => exact Or.inl rfl
  | resize _ _ => exact Or.inl rfl
  | referenceAssign _ _ => exact Or.inl rfl

/-- A mutation either leaves the attachment lists of the observed container alone or
replaces them by the result of one `update`. -/
theorem mutation_run_container_lists [DecidableEq α] (env : Env S) (op : Mutation α β)
    (w : World S α β) :
    (op.run env w).container.toObservedBase = w.container.toObservedBase ∨
      ∃ m' : Machine S,
        (op.run env w).container.toObservedBase
          = (w.container.toObservedBase.update env.toEventEnv m').1 := by
  cases op with
  | operatorAssign fundamental v => exact Or.inl rfl
  | assignChecked v => exact Or.inl rfl
  | modify f => exact Or.inl rfl
  | push_back _ => exact Or.inr (insertRangeChecked_observed env _ _ _ _ _)
  | insert _ _ => exact Or.inr (insertRangeChecked_observed env _ _ _ _ _)
  | erase _ => exact Or.inr (insertRangeChecked_observed env _ _ _ _ _)
  | pop_back => exact Or.inr (insertRangeChecked_observed env _ _ _ _ _)
  | resize count fillValue =>
    right
    simp only [Mutation.run, ObservedContainer.resize]
    split <;> exact insertRangeChecked_observed env _ _ _ _ _
  | referenceAssign _ _ => exact Or.inr (insertRangeChecked_observed env _ _ _ _ _)

/-! ## Lemmas on bulk operations and exhausted retries -/

/-- The common tail of every bulk operation: one reset to the new size, then one `update`. -/
theorem reset_then_update (env : Env S) (o : ObservedContainer β) (m : Machine S) (size : Nat) :
    (ObservedContainer.update env o false (Machine.reset env m size true)).1.contained_
        = o.contained_ ∧
      (ObservedContainer.update env o false (Machine.reset env m size true)).2.log
        = m.log ++ Call.reset size true
            :: (o.attachedEvents_ ++ o.attachedOneshotEvents_).map Call.activateEvent ∧
      flushCount (ObservedContainer.update env o false (Machine.reset env m size true)).2.log
        = flushCount m.log ∧
      insertCallCount
          (ObservedContainer.update env o false (Machine.reset env m size true)).2.log
        = insertCallCount m.log := by
  refine ⟨rfl, ?_, ?_, ?_⟩
  · simp [observedContainer_update_false, modifiableObserved_update_log, Machine.reset]
  · simp [observedContainer_update_false, modifiableObserved_update_log, Machine.reset,
      flushCount_append, flushCount_cons_reset, flushCount_map_activateEvent, flushCount_nil]
  · simp [observedContainer_update_false, modifiableObserved_update_log, Machine.reset,
      insertCallCount_append, insertCallCount_cons_reset, insertCallCount_map_activateEvent,
      insertCallCount_nil]

theorem count_reset_map_activateEvent (size : Nat) (flag : Bool) (ids : List EventIdType) :
    (ids.map Call.activateEvent).count (Call.reset size flag) = 0 := by
  induction ids with
  | nil => rfl
  | cons e rest ih =>
    rw [List.map_cons, List.count_cons_of_ne (by simp)]
    exact ih

/-! ## Lemmas on the modification proxy -/

theorem activateAttachedThrowing_log (env : ThrowingEventEnv S) (l : List EventIdType) :
    ∀ m : Machine S,
      match activateAttachedThrowing env l m with
      | Except.ok r => r.2.log = m.log ++ l.map Call.activateEvent
      | Except.error r =>
        ∃ k, k ≤ l.length ∧ r.2.log = m.log ++ (l.take k).map Call.activateEvent := by
  induction l with
  | nil => intro m; simp [activateAttachedThrowing]
  | cons e rest ih =>
    intro m
    simp only [activateAttachedThrowing, Machine.activateEventThrowing]
    cases hc : env.activateEvent m.ext e with
    | error s1 =>
      exact ⟨1, by simp, by simp⟩
    | ok r =>
      have h := ih { ext := r.1, log := m.log ++ [Call.activateEvent e] }
      simp only []
      cases ht : activateAttachedThrowing env rest
          { ext := r.1, log := m.log ++ [Call.activateEvent e] } with
      | ok tail =>
        rw [ht] at h
        simp only [] at h ⊢
        simp [h]
      | error tail =>
        rw [ht] at h
        simp only [] at h ⊢
        obtain ⟨k, hk, hl⟩ := h
        exact ⟨k + 1, by simp [hk], by simp [hl]⟩

theorem activateOneshotThrowing_log (env : ThrowingEventEnv S) (l : List EventIdType) :
    ∀ m : Machine S,
      match activateOneshotThrowing env l m with
      | Except.ok r => r.log = m.log ++ l.map Call.activateEvent
      | Except.error r =>
        ∃ k, k ≤ l.length ∧ r.log = m.log ++ (l.take k).map Call.activateEvent := by
  induction l with
  | nil => intro m; simp [activateOneshotThrowing]
  | cons e rest ih =>
    intro m
    simp only [activateOneshotThrowing, Machine.activateEventThrowing]
    cases hc : env.activateEvent m.ext e with
    | error s1 =>
      exact ⟨1, by simp, by simp⟩
    | ok r =>
      have h := ih { ext := r.1, log := m.log ++ [Call.activateEvent e] }
      simp only []
      cases ht : activateOneshotThrowing env rest
          { ext := r.1, log := m.log ++ [Call.activateEvent e] } with
      | ok tail =>
        rw [ht] at h
        simp only [] at h ⊢
        simp [h]
      | error tail =>
        rw [ht] at h
        simp only [] at h ⊢
        obtain ⟨k, hk, hl⟩ := h
        exact ⟨k + 1, by simp [hk], by simp [hl]⟩

/-- Whether or not an activation throws, the release of the proxy makes one pass over the
attached ids: it activates a prefix of the repeating ids followed by the one-shot ids. -/
theorem release_log (env : ThrowingEventEnv S) (o : ModifiableObserved α) (m : Machine S) :
    ∃ k, k ≤ (o.attachedEvents_ ++ o.attachedOneshotEvents_).length ∧
      (ModificationProxy.release env o m).2.log
        = m.log ++ ((o.attachedEvents_ ++ o.attachedOneshotEvents_).take k).map
            Call.activateEvent := by
  have h1 := activateAttachedThrowing_log env o.attachedEvents_ m
  simp only [ModificationProxy.release, ObservedBase.updateThrowing]
  cases ha : activateAttachedThrowing env o.attachedEvents_ m with
  | error r =>
    rw [ha] at h1
    obtain ⟨k, hk, hl⟩ := h1
    refine ⟨k, by simp; omega, ?_⟩
    simp only []
    rw [hl, List.take_append_of_le_length hk]
  | ok r =>
    rw [ha] at h1
    simp only [] at h1 ⊢
    have h2 := activateOneshotThrowing_log env o.attachedOneshotEvents_ r.2
    cases hb : activateOneshotThrowing env o.attachedOneshotEvents_ r.2 with
    | error m2 =>
      rw [hb] at h2
      obtain ⟨k, hk, hl⟩ := h2
      refine ⟨o.attachedEvents_.length + k, by simp; omega, ?_⟩
      simp only []
      rw [hl, h1, List.take_append, List.map_append, List.append_assoc]
    | ok m2 =>
      rw [hb] at h2
      refine ⟨(o.attachedEvents_ ++ o.attachedOneshotEvents_).length, Nat.le_refl _, ?_⟩
      simp only [] at h2 ⊢
      rw [h2, h1, List.take_length, List.map_append, List.append_assoc]

theorem activateAttachedThrowing_toThrowing (env : EventEnv S) (l : List EventIdType) :
    ∀ m : Machine S,
      activateAttachedThrowing env.toThrowing l m = Except.ok (activateAttached env l m) := by
  induction l with
  | nil => intro m; rfl
  | cons e rest ih =>
    intro m
    simp only [activateAttachedThrowing, Machine.activateEventThrowing, EventEnv.toThrowing,
      activateAttached, Machine.activateEvent]
    have := ih { ext := (env.activateEvent m.ext e).1, log := m.log ++ [Call.activateEvent e] }
    simp only [EventEnv.toThrowing] at this
    rw [this]

theorem activateOneshotThrowing_toThrowing (env : EventEnv S) (l : List EventIdType) :
    ∀ m : Machine S,
      activateOneshotThrowing env.toThrowing l m = Except.ok (activateOneshot env l m) := by
  induction l with
  | nil => intro m; rfl
  | cons e rest ih =>
    intro m
    simp only [activateOneshotThrowing, Machine.activateEventThrowing, EventEnv.toThrowing,
      activateOneshot, Machine.activateEvent]
    have := ih { ext := (env.activateEvent m.ext e).1, log := m.log ++ [Call.activateEvent e] }
    simp only [EventEnv.toThrowing] at this
    rw [this]

theorem release_toThrowing (env : EventEnv S) (o : ModifiableObserved α) (m : Machine S) :
    ModificationProxy.release env.toThrowing o m = ModifiableObserved.update env o m := by
  simp only [ModificationProxy.release, ObservedBase.updateThrowing,
    activateAttachedThrowing_toThrowing, activateOneshotThrowing_toThrowing]
  rfl

theorem release_contained (env : ThrowingEventEnv S) (o : ModifiableObserved α)
    (m : Machine S) : (ModificationProxy.release env o m).1.contained_ = o.contained_ := by
  simp only [ModificationProxy.release]
  split <;> rfl

/-! ## Lemmas on stable elements -/

theorem stabilize_held (parentOf : Val → Option Val) (env : RenderEnv)
    (stableElement : StableElement) (e : Element)
    (hheld : stableElement.stableElement_ = some e) (hreset : stableElement.reset_ = false) :
    stabilize parentOf env stableElement = (stableElement, env.nil, [RenderCall.nil]) := by
  simp [stabilize, hheld, hreset]

theorem count_encapsulatedRenderer_map_dom (val : Val) (calls : List DomCall) :
    (calls.map RenderCall.dom).count (RenderCall.encapsulatedRenderer val) = 0 := by
  induction calls with
  | nil => rfl
  | cons c rest ih =>
    rw [List.map_cons, List.count_cons_of_ne (by simp)]
    exact ih

theorem stabilize_rebuild (parentOf : Val → Option Val) (env : RenderEnv)
    (stableElement : StableElement)
    (h : stableElement.reset_ = true ∨ stableElement.stableElement_ = none) :
    (stabilize parentOf env stableElement).1
        = { stableElement_ := some (env.encapsulatedRenderer
              ((Element.new env.div).setup { attributes := [] }).1).1,
            reset_ := false } ∧
      (stabilize parentOf env stableElement).2.2.count
          (RenderCall.encapsulatedRenderer env.div) = 1 ∧
      RenderCall.nil ∉ (stabilize parentOf env stableElement).2.2 := by
  have hc : (stableElement.reset_ || stableElement.stableElement_.isNone) = true := by
    rcases h with h | h <;> simp [h]
  unfold stabilize
  rw [if_pos hc]
  refine ⟨rfl, ?_, ?_⟩
  · simp [List.count_append, count_encapsulatedRenderer_map_dom]
  · simp

/-! ## Lemmas on recorded edits -/

theorem recordedEdits_append (l₁ l₂ : List Call) :
    recordedEdits (l₁ ++ l₂) = recordedEdits l₁ ++ recordedEdits l₂ := by
  induction l₁ with
  | nil => rfl
  | cons c rest ih => cases c <;> simp [recordedEdits, ih]

theorem recordedEdits_map_activateEvent (ids : List EventIdType) :
    recordedEdits (ids.map Call.activateEvent) = [] := by
  induction ids with
  | nil => rfl
  | cons e rest ih => simp [recordedEdits, ih]

theorem recordedEdits_update (env : EventEnv S) (o : ModifiableObserved α) (m : Machine S) :
    recordedEdits (ModifiableObserved.update env o m).2.log = recordedEdits m.log := by
  rw [modifiableObserved_update_log, recordedEdits_append, recordedEdits_map_activateEvent,
    List.append_nil]

/-- Every call of `insertModificationRange` made by a run of `doInsert` hands over the same
edit, and there are between one and `4 - retries` of them. -/
theorem doInsert_recordedEdits (env : Env S) (low high : Nat) (type : RangeStateType) :
    ∀ (k retries : Nat) (o : ObservedContainer α) (m : Machine S), 3 - retries = k →
      ∃ n, 1 ≤ n ∧ n ≤ k + 1 ∧
        recordedEdits (doInsert env low high type retries o m).2.log
          = recordedEdits m.log ++ List.replicate n
              { size := o.contained_.length, low := low, high := high, type := type } := by
  intro k
  induction k with
  | zero =>
    intro retries o m h
    have h3 : ¬ retries < 3 := by omega
    refine ⟨1, Nat.le_refl _, Nat.le_refl _, ?_⟩
    rw [doInsert]
    cases hr : (Machine.insertModificationRange env m o.contained_.length low high type).2 <;>
      simp [hr, h3, observedContainer_update_false, recordedEdits_update,
        Machine.executeActiveEventsImmediately, Machine.reset, Machine.insertModificationRange,
        recordedEdits_append, recordedEdits, modifiableObserved_update_log,
        recordedEdits_map_activateEvent]
  | succ k ih =>
    intro retries o m h
    have h3 : retries < 3 := by omega
    rw [doInsert]
    cases hr : (Machine.insertModificationRange env m o.contained_.length low high type).2
    · refine ⟨1, Nat.le_refl _, by omega, ?_⟩
      simp [hr, observedContainer_update_false,
        Machine.executeActiveEventsImmediately, Machine.insertModificationRange,
        recordedEdits_append, recordedEdits, modifiableObserved_update_log,
        recordedEdits_map_activateEvent]
    · simp only [hr, h3, if_true]
      obtain ⟨n, h1, h2, e⟩ := ih (retries + 1) o
        (Machine.insertModificationRange env m o.contained_.length low high type).1 (by omega)
      refine ⟨n + 1, by omega, by omega, ?_⟩
      rw [e]
      simp [Machine.insertModificationRange, recordedEdits_append, recordedEdits,
        List.replicate_succ]
    · refine ⟨1, Nat.le_refl _, by omega, ?_⟩
      simp [hr, observedContainer_update_false, Machine.insertModificationRange,
        recordedEdits_append, recordedEdits, modifiableObserved_update_log,
        recordedEdits_map_activateEvent]

theorem insertRangeChecked_recordedEdits (env : Env S) (o : ObservedContainer α)
    (low high : Nat) (type : RangeStateType) (m : Machine S) :
    ∃ n, 1 ≤ n ∧ n ≤ 4 ∧
      recordedEdits (ObservedContainer.insertRangeChecked env o low high type m).2.log
        = recordedEdits m.log ++ List.replicate n
            { size := o.contained_.length, low := low, high := high, type := type } :=
  doInsert_recordedEdits env low high type 3 0 o m rfl

/-- When the first answer of the range context is not Retry, exactly one edit is handed
over. -/
theorem insertRangeChecked_recordedEdits_single (env : Env S) (o : ObservedContainer α)
    (low high : Nat) (type : RangeStateType) (m : Machine S)
    (h : (env.insertModificationRange m.ext o.contained_.length low high type).2
      ≠ InsertResult.Retry) :
    recordedEdits (ObservedContainer.insertRangeChecked env o low high type m).2.log
      = recordedEdits m.log
        ++ [{ size := o.contained_.length, low := low, high := high, type := type }] := by
  rw [ObservedContainer.insertRangeChecked, doInsert]
  cases hr : (env.insertModificationRange m.ext o.contained_.length low high type).2
  · simp [Machine.insertModificationRange, hr, observedContainer_update_false,
      Machine.executeActiveEventsImmediately, recordedEdits_append, recordedEdits,
      modifiableObserved_update_log, recordedEdits_map_activateEvent]
  · exact absurd hr h
  · simp [Machine.insertModificationRange, hr, observedContainer_update_false,
      recordedEdits_append, recordedEdits, modifiableObserved_update_log,
      recordedEdits_map_activateEvent]

theorem insertRangeChecked_contained (env : Env S) (o : ObservedContainer α)
    (low high : Nat) (type : RangeStateType) (m : Machine S) :
    (ObservedContainer.insertRangeChecked env o low high type m).1.contained_
      = o.contained_ := by
  obtain ⟨m', h⟩ := doInsert_observed env low high type 3 0 o m rfl
  rw [ObservedContainer.insertRangeChecked, h]
  rfl

/-! ## Lemmas on child insertion -/

theorem insertBeforeSibling_getElem (child : Val) :
    ∀ (l : List Val) (w : Nat) (h : w < l.length), l.Nodup →
      insertBeforeSibling child (l.get ⟨w, h⟩) l = some (l.take w ++ child :: l.drop w) := by
  intro l
  induction l with
  | nil => intro w h; simp at h
  | cons s rest ih =>
    intro w h hn
    cases w with
    | zero => simp [insertBeforeSibling]
    | succ w =>
      have hw : w < rest.length := by simpa using h
      have hne : s ≠ rest.get ⟨w, hw⟩ := by
        intro he
        have hmem : s ∈ rest := by rw [he]; exact List.get_mem _ _ _
        exact (List.nodup_cons.mp hn).1 hmem
      have := ih w hw (List.nodup_cons.mp hn).2
      simp only [List.get_cons_succ, insertBeforeSibling, hne, if_false, this]
      simp

theorem nodup_insert_middle (l : List Val) (w : Nat) (child : Val) (hn : l.Nodup)
    (hfresh : child ∉ l) : (l.take w ++ child :: l.drop w).Nodup := by
  have hp : (l.take w ++ child :: l.drop w).Perm (child :: (l.take w ++ l.drop w)) :=
    List.perm_middle
  rw [hp.nodup_iff, List.take_append_drop]
  exact List.nodup_cons.mpr ⟨hfresh, hn⟩

theorem makeElement_val (val : Val) (element : HtmlElement) :
    (Element.makeElement val element).val = val := rfl

theorem element_insert_children (e : Element) (pos : Nat) (element : HtmlElement) (val : Val) :
    (e.insert pos element val).1.children_
      = e.children_.take pos ++ Element.makeElement val element :: e.children_.drop pos := by
  cases e with
  | mk v d cs u =>
    simp only [Element.insert, Element.children_]
    by_cases h : pos ≥ cs.length
    · rw [if_pos h]
      simp [Element.appendElement, Element.children_, List.take_of_length_le h,
        List.drop_of_length_le h]
    · rw [if_neg h]
      simp only [Element.insertIterator, Element.children_]
      cases hd : cs.drop pos with
      | nil =>
        have := List.drop_eq_nil_iff.mp hd
        omega
      | cons child rest => simp [Element.children_]

theorem element_insert_native (e : Element) (pos : Nat) (element : HtmlElement) (val : Val)
    (hnodup : (e.children_.map Element.val).Nodup) :
    (e.insert pos element val).2.apply (e.children_.map Element.val)
      = some ((e.children_.map Element.val).take pos
          ++ val :: (e.children_.map Element.val).drop pos) := by
  cases e with
  | mk v d cs u =>
    simp only [Element.children_] at hnodup
    simp only [Element.insert, Element.children_]
    by_cases h : pos ≥ cs.length
    · rw [if_pos h]
      have hl : (cs.map Element.val).length ≤ pos := by simpa using h
      simp [Element.appendElement, NativeInsertion.apply, List.take_of_length_le hl,
        List.drop_of_length_le hl]
    · rw [if_neg h]
      simp only [Element.insertIterator, Element.children_]
      have hlt : pos < cs.length := by omega
      have hd : cs.drop pos = cs.get ⟨pos, hlt⟩ :: cs.drop (pos + 1) := by
        rw [List.drop_eq_getElem_cons hlt]
        rfl
      rw [hd]
      simp only [NativeInsertion.apply]
      have hlt' : pos < (cs.map Element.val).length := by simpa using hlt
      have hg : (cs.get ⟨pos, hlt⟩).val = (cs.map Element.val).get ⟨pos, hlt'⟩ := by simp
      rw [hg]
      exact insertBeforeSibling_getElem val _ pos hlt' hnodup

/-! ## Evaluation of container edits over the sample range context -/

theorem finalEnv_contained (o : ObservedContainer Nat) (low high : Nat) (type : RangeStateType)
    (m : Machine Unit) :
    (ObservedContainer.insertRangeChecked finalEnv o low high type m).1.contained_
      = o.contained_ :=
  insertRangeChecked_contained finalEnv o low high type m

theorem finalEnv_recordedEdits (o : ObservedContainer Nat) (low high : Nat)
    (type : RangeStateType) (m : Machine Unit) :
    recordedEdits (ObservedContainer.insertRangeChecked finalEnv o low high type m).2.log
      = recordedEdits m.log
        ++ [{ size := o.contained_.length, low := low, high := high, type := type }] :=
  insertRangeChecked_recordedEdits_single finalEnv o low high type m
    (by simp [finalEnv, constEnv])

theorem finalEnv_activations (o : ObservedContainer Nat) (low high : Nat)
    (type : RangeStateType) (m : Machine Unit) :
    activations (ObservedContainer.insertRangeChecked finalEnv o low high type m).2.log
      = activations m.log ++ (o.attachedEvents_ ++ o.attachedOneshotEvents_) := by
  rw [ObservedContainer.insertRangeChecked, doInsert]
  simp [finalEnv, constEnv, Machine.insertModificationRange, observedContainer_update_false,
    modifiableObserved_update_log, Machine.executeActiveEventsImmediately, activations_append,
    activations_map_activateEvent, activations]

/-! ## Claims -/

/-- C1: one call of insertRangeChecked always returns (the embedded function is total) and,
whatever results insertModificationRange gives, calls insertModificationRange at least once
and at most 4 times: the first attempt plus at most 3 re-attempts. -/
theorem insertRangeChecked_at_most_four_attempts (env : Env S) (o : ObservedContainer α)
    (low high : Nat) (type : RangeStateType) (m : Machine S) :
    insertCallCount m.log + 1
        ≤ insertCallCount (ObservedContainer.insertRangeChecked env o low high type m).2.log ∧
      insertCallCount (ObservedContainer.insertRangeChecked env o low high type m).2.log
        ≤ insertCallCount m.log + 4 := by
  have := doInsert_insertCallCount env low high type 3 0 o m (by omega)
  simpa [ObservedContainer.insertRangeChecked] using this

/-- C3 (counterexample): push_back on an empty observed container whose range context
answers Final calls executeActiveEventsImmediately itself: the mutation triggers a flush. -/
theorem push_back_flushes_on_final :
    (Mutation.run (constEnv true InsertResult.Final) emptyWorld
        (Mutation.push_back 5)).machine.log
      = [Call.insertModificationRange 1 0 0 RangeStateType.Insert,
         Call.executeActiveEventsImmediately] ∧
    flushCount (Mutation.run (constEnv true InsertResult.Final) emptyWorld
        (Mutation.push_back 5)).machine.log = 1 := by
  have e : (Mutation.run (constEnv true InsertResult.Final) emptyWorld
        (Mutation.push_back 5)).machine.log
      = [Call.insertModificationRange 1 0 0 RangeStateType.Insert,
         Call.executeActiveEventsImmediately] := by
    simp [Mutation.run, ObservedContainer.push_back, ObservedContainer.insertRangeChecked,
      doInsert, Machine.insertModificationRange, constEnv, ObservedContainer.update,
      modifiableObserved_update_log, Machine.executeActiveEventsImmediately, emptyWorld,
      emptyMachine]
  exact ⟨e, by rw [e]; rfl⟩

/-- C3 (amended): plain assignment, assignChecked and the release of a modify proxy only
activate events: they append activateEvent calls to the call log and never flush.  A
container edit (push_back, insert, erase, pop_back, resize, assignment through a reference
wrapper) goes through insertRangeChecked and flushes at most once itself: exactly once when
insertModificationRange answers Final, not at all when it answers neither Final nor
Retry. -/
theorem mutation_flushes_only_in_insertRangeChecked [DecidableEq α] (env : Env S)
    (op : Mutation α β) (w : World S α β) :
    (op.isValueMutation = true →
        (∃ ids : List EventIdType,
          (op.run env w).machine.log = w.machine.log ++ ids.map Call.activateEvent) ∧
        flushCount (op.run env w).machine.log = flushCount w.machine.log) ∧
      flushCount (op.run env w).machine.log ≤ flushCount w.machine.log + 1 ∧
      ∀ (o : ObservedContainer β) (low high : Nat) (type : RangeStateType) (m : Machine S),
        ((env.insertModificationRange m.ext o.contained_.length low high type).2
            = InsertResult.Final →
          flushCount (ObservedContainer.insertRangeChecked env o low high type m).2.log
            = flushCount m.log + 1) ∧
        ((env.insertModificationRange m.ext o.contained_.length low high type).2
            = InsertResult.Other →
          flushCount (ObservedContainer.insertRangeChecked env o low high type m).2.log
            = flushCount m.log) :=
  ⟨fun h => ⟨mutation_run_value_log env op w h, mutation_run_value_flushCount env op w h⟩,
   mutation_run_flushCount_le env op w,
   fun o low high type m =>
     ⟨insertRangeChecked_flushCount_final env o low high type m,
      insertRangeChecked_flushCount_other env o low high type m⟩⟩

/-- C3 (amended), at a concrete input: releasing a modify proxy does not flush, and an edit
of the container whose range context answers Final flushes once. -/
theorem mutation_flushes_only_in_insertRangeChecked_witness :
    flushCount (Mutation.run (constEnv true InsertResult.Final) emptyWorld
        (Mutation.modify (fun n => n + 1))).machine.log = flushCount emptyWorld.machine.log ∧
    flushCount (ObservedContainer.insertRangeChecked (constEnv true InsertResult.Final)
        emptyWorld.container 0 0 RangeStateType.Insert emptyMachine).2.log
      = flushCount emptyMachine.log + 1 :=
  ⟨((mutation_flushes_only_in_insertRangeChecked (constEnv true InsertResult.Final)
      (Mutation.modify (fun n => n + 1)) emptyWorld).1 rfl).2,
   ((mutation_flushes_only_in_insertRangeChecked (constEnv true InsertResult.Final)
      (Mutation.modify (fun n => n + 1)) emptyWorld).2.2
      emptyWorld.container 0 0 RangeStateType.Insert emptyMachine).1 rfl⟩

/-- C4 (counterexample): a handler that does one push_back on an observed container whose
range context answers Final: one invocation of the event attribute wrapper produces two
flushes, one inside push_back and one after the handler. -/
theorem eventAttributeHandler_two_flushes :
    flushCount (eventAttributeHandler (constEnv true InsertResult.Final)
        (fun (_ : Unit) => runHandler (constEnv true InsertResult.Final)
          [Mutation.push_back 5]) () emptyWorld).machine.log = 2 := by
  have e : (runHandler (constEnv true InsertResult.Final) [Mutation.push_back 5]
        emptyWorld).machine.log
      = [Call.insertModificationRange 1 0 0 RangeStateType.Insert,
         Call.executeActiveEventsImmediately] := by
    simp [runHandler, Mutation.run, ObservedContainer.push_back,
      ObservedContainer.insertRangeChecked,
      doInsert, Machine.insertModificationRange, constEnv, ObservedContainer.update,
      modifiableObserved_update_log, Machine.executeActiveEventsImmediately, emptyWorld,
      emptyMachine]
  simp only [eventAttributeHandler, Machine.executeActiveEventsImmediately, e]
  rfl

/-- C4 (amended): one invocation of the event attribute wrapper applies the handler once to
the incoming state and then calls executeActiveEventsImmediately once, as its last call, on
the state the handler left.  Every container edit inside the handler adds at most one
further flush, and a handler that performs only observed-value mutations (plain assignment,
assignChecked, modify), however many, adds none: exactly one flush in total. -/
theorem eventAttributeHandler_flushes_after_handler [DecidableEq α] {V : Type} (env : Env S)
    (func : V → World S α β → World S α β) (val : V) (w : World S α β)
    (ops : List (Mutation α β)) :
    (eventAttributeHandler env func val w).machine.log
        = (func val w).machine.log ++ [Call.executeActiveEventsImmediately] ∧
      (eventAttributeHandler env func val w).machine.ext
        = env.executeActiveEventsImmediately (func val w).machine.ext ∧
      (eventAttributeHandler env func val w).value = (func val w).value ∧
      (eventAttributeHandler env func val w).container = (func val w).container ∧
      flushCount (eventAttributeHandler env func val w).machine.log
        = flushCount (func val w).machine.log + 1 ∧
      flushCount (eventAttributeHandler env (fun _ => runHandler env ops) val w).machine.log
        ≤ flushCount w.machine.log + containerEditCount ops + 1 ∧
      ((∀ op ∈ ops, Mutation.isValueMutation op = true) →
        flushCount (eventAttributeHandler env (fun _ => runHandler env ops) val w).machine.log
          = flushCount w.machine.log + 1) := by
  refine ⟨rfl, rfl, rfl, rfl, ?_, ?_, ?_⟩
  · simp [eventAttributeHandler, Machine.executeActiveEventsImmediately, flushCount_append,
      flushCount_cons_flush, flushCount_nil]
  · have := runHandler_flushCount_le env ops w
    simp only [eventAttributeHandler, Machine.executeActiveEventsImmediately,
      flushCount_append, flushCount_cons_flush, flushCount_nil]
    omega
  · intro h
    simp [eventAttributeHandler, Machine.executeActiveEventsImmediately, flushCount_append,
      flushCount_cons_flush, flushCount_nil, runHandler_value_flushCount env ops w h]

/-- C4 (amended), at a concrete input: a handler that assigns twice and releases a modify
proxy produces exactly one flush. -/
theorem eventAttributeHandler_flushes_after_handler_witness :
    flushCount (eventAttributeHandler (constEnv true InsertResult.Final)
        (fun (_ : Unit) => runHandler (constEnv true InsertResult.Final)
          [Mutation.operatorAssign false 1, Mutation.assignChecked 2,
           Mutation.modify (fun n => n + 1)]) () emptyWorld).machine.log
      = flushCount emptyWorld.machine.log + 1 :=
  (eventAttributeHandler_flushes_after_handler (constEnv true InsertResult.Final)
    (fun (_ : Unit) => runHandler (constEnv true InsertResult.Final)
      [Mutation.operatorAssign false 1, Mutation.assignChecked 2,
       Mutation.modify (fun n => n + 1)]) () emptyWorld
    [Mutation.operatorAssign false 1, Mutation.assignChecked 2,
     Mutation.modify (fun n => n + 1)]).2.2.2.2.2.2 (by simp [Mutation.isValueMutation])

/-- C5 (counterexample): an observed value of a fundamental type holding 13, with event 7
attached, is assigned 13 again through the constrained overload of the plain assignment: no
event is activated, although the claim promises one call of update. -/
theorem operatorAssign_fundamental_same_value_is_silent :
    (ModifiableObserved.operatorAssign true (constEventEnv true)
        { attachedEvents_ := [7], attachedOneshotEvents_ := [], contained_ := (13 : Nat) } 13
        emptyMachine).2.log = [] ∧
      (ModifiableObserved.update (constEventEnv true)
        { attachedEvents_ := [7], attachedOneshotEvents_ := [], contained_ := (13 : Nat) }
        emptyMachine).2.log = [Call.activateEvent 7] := by
  constructor <;> rfl

/-- C5 (amended): after a plain assignment of v the contained value is v in every case.  The
generic overload notifies always: update runs once, activating every attached id.  The
overload for equality-comparable fundamental types is assignChecked: it notifies once when v
differs from the held value and does nothing at all when v equals it. -/
theorem operatorAssign_replaces_and_notifies [DecidableEq α] (env : EventEnv S)
    (o : ModifiableObserved α) (v : α) (m : Machine S) (fundamental : Bool) :
    (ModifiableObserved.operatorAssign fundamental env o v m).1.contained_ = v ∧
      ModifiableObserved.operatorAssign false env o v m
        = ModifiableObserved.update env { o with contained_ := v } m ∧
      (ModifiableObserved.operatorAssign false env o v m).2.log
        = m.log ++ (o.attachedEvents_ ++ o.attachedOneshotEvents_).map Call.activateEvent ∧
      ModifiableObserved.operatorAssign true env o v m
        = ModifiableObserved.assignChecked env o v m ∧
      (o.contained_ ≠ v →
        ModifiableObserved.operatorAssign true env o v m
          = ModifiableObserved.update env { o with contained_ := v } m) ∧
      (o.contained_ = v → ModifiableObserved.operatorAssign true env o v m = (o, m)) := by
  refine ⟨?_, rfl, ?_, rfl, ?_, ?_⟩
  · cases fundamental
    · rfl
    · by_cases h : o.contained_ = v
      · simp [ModifiableObserved.operatorAssign, ModifiableObserved.assignChecked, h]
      · simp [ModifiableObserved.operatorAssign, ModifiableObserved.assignChecked, h,
          modifiableObserved_update_contained]
  · simp [ModifiableObserved.operatorAssign, ModifiableObserved.assign,
      modifiableObserved_update_log]
  · intro h
    simp [ModifiableObserved.operatorAssign, ModifiableObserved.assignChecked, h]
  · intro h
    simp [ModifiableObserved.operatorAssign, ModifiableObserved.assignChecked, h]

/-- C5 (amended), at a concrete input: 13 is replaced by 31 with one notification, and
assigning 13 over 13 through the overload for fundamental types changes nothing. -/
theorem operatorAssign_replaces_and_notifies_witness :
    ModifiableObserved.operatorAssign true (constEventEnv true)
        { attachedEvents_ := [7], attachedOneshotEvents_ := [], contained_ := (13 : Nat) } 31
        emptyMachine
      = ModifiableObserved.update (constEventEnv true)
        { attachedEvents_ := [7], attachedOneshotEvents_ := [], contained_ := (31 : Nat) }
        emptyMachine ∧
    ModifiableObserved.operatorAssign true (constEventEnv true)
        { attachedEvents_ := [7], attachedOneshotEvents_ := [], contained_ := (13 : Nat) } 13
        emptyMachine
      = ({ attachedEvents_ := [7], attachedOneshotEvents_ := [], contained_ := (13 : Nat) },
         emptyMachine) :=
  ⟨(operatorAssign_replaces_and_notifies (constEventEnv true)
      { attachedEvents_ := [7], attachedOneshotEvents_ := [], contained_ := (13 : Nat) } 31
      emptyMachine true).2.2.2.2.1 (by decide),
   (operatorAssign_replaces_and_notifies (constEventEnv true)
      { attachedEvents_ := [7], attachedOneshotEvents_ := [], contained_ := (13 : Nat) } 13
      emptyMachine true).2.2.2.2.2 rfl⟩

/-- C6: assignChecked notifies iff the new value differs from the contained one.  If they
are equal nothing changes: value, both attachment lists and the call log stay as they were,
so no event is activated.  If they differ the contained value becomes v and update runs
exactly once, activating every attached id once. -/
theorem assignChecked_notifies_iff_differs [DecidableEq α] (env : EventEnv S)
    (o : ModifiableObserved α) (v : α) (m : Machine S) :
    (o.contained_ = v → ModifiableObserved.assignChecked env o v m = (o, m)) ∧
      (o.contained_ ≠ v →
        ModifiableObserved.assignChecked env o v m
            = ModifiableObserved.update env { o with contained_ := v } m ∧
          (ModifiableObserved.assignChecked env o v m).1.contained_ = v ∧
          (ModifiableObserved.assignChecked env o v m).2.log
            = m.log ++ (o.attachedEvents_ ++ o.attachedOneshotEvents_).map
                Call.activateEvent) := by
  constructor
  · intro h
    simp [ModifiableObserved.assignChecked, h]
  · intro h
    have e : ModifiableObserved.assignChecked env o v m
        = ModifiableObserved.update env { o with contained_ := v } m := by
      simp [ModifiableObserved.assignChecked, h]
    refine ⟨e, ?_, ?_⟩
    · rw [e]; rfl
    · rw [e, modifiableObserved_update_log]

/-- C6, at a concrete input: assigning 13 over 13 changes nothing, assigning 31 over 13
stores 31 and activates the attached events 7 and 9 once each. -/
theorem assignChecked_notifies_iff_differs_witness :
    ModifiableObserved.assignChecked (constEventEnv true)
        { attachedEvents_ := [7], attachedOneshotEvents_ := [9], contained_ := (13 : Nat) } 13
        emptyMachine
      = ({ attachedEvents_ := [7], attachedOneshotEvents_ := [9], contained_ := (13 : Nat) },
         emptyMachine) ∧
    (ModifiableObserved.assignChecked (constEventEnv true)
        { attachedEvents_ := [7], attachedOneshotEvents_ := [9], contained_ := (13 : Nat) } 31
        emptyMachine).2.log = [Call.activateEvent 7, Call.activateEvent 9] :=
  ⟨(assignChecked_notifies_iff_differs (constEventEnv true)
      { attachedEvents_ := [7], attachedOneshotEvents_ := [9], contained_ := (13 : Nat) } 13
      emptyMachine).1 rfl,
   ((assignChecked_notifies_iff_differs (constEventEnv true)
      { attachedEvents_ := [7], attachedOneshotEvents_ := [9], contained_ := (13 : Nat) } 31
      emptyMachine).2 (by decide)).2.2⟩

/-- C7 (counterexample): a binding of element 1 is created (event id 0) and the element is
destroyed.  A flush that follows directly does not apply the user function, but the id 0 is
still in the observed value's attached-event list when it has finished.  The same holds
when the observed value is assigned between the destruction and the flush: the flush then
drops the event from the registry and still leaves the id attached. -/
theorem dead_binding_id_still_attached_after_flush :
    (((emptyBindingWorld.createEvent 1).destroyElement 1
        ).executeActiveEventsImmediately true).observed.attachedEvents_ = [0] ∧
    (((emptyBindingWorld.createEvent 1).destroyElement 1
        ).executeActiveEventsImmediately true).userCalls = [] ∧
    ((((emptyBindingWorld.createEvent 1).destroyElement 1).assign 99 5
        ).executeActiveEventsImmediately true).observed.attachedEvents_ = [0] ∧
    ((((emptyBindingWorld.createEvent 1).destroyElement 1).assign 99 5
        ).executeActiveEventsImmediately true).machine.ext.events = [] ∧
    ((((emptyBindingWorld.createEvent 1).destroyElement 1).assign 99 5
        ).executeActiveEventsImmediately true).userCalls = [] ∧
    ((((emptyBindingWorld.createEvent 1).destroyElement 1).assign 99 5
        ).executeActiveEventsImmediately false).observed.attachedEvents_ = [0] := by
  refine ⟨?_, ?_, ?_, ?_, ?_, ?_⟩ <;> rfl

/-- C7 (amended): after the owning element of a binding has been destroyed, a flush applies
no user function for that element.  If the binding's id was attached, so that the mutation
before the flush activated it, the flush drops the event from the registry, and in every
case the first update of the observed value after the flush leaves the id out of the
attached-event list. -/
theorem dead_binding_not_invoked_then_pruned (prefilter : Bool) (inv : EventIdType)
    (w : BindingWorld α) (element : Nat) (id : EventIdType) (v v' : α)
    (hown : ∀ ev ∈ w.machine.ext.events, ev.id = id → ev.element = element) :
    (∃ calls : List (Nat × α),
        (((w.destroyElement element).assign inv v).executeActiveEventsImmediately
          prefilter).userCalls = w.userCalls ++ calls ∧
        ∀ c ∈ calls, c.1 ≠ element) ∧
      (id ∈ w.observed.attachedEvents_ →
        ∀ ev ∈ (((w.destroyElement element).assign inv v).executeActiveEventsImmediately
          prefilter).machine.ext.events, ev.id ≠ id) ∧
      id ∉ ((((w.destroyElement element).assign inv v).executeActiveEventsImmediately
          prefilter).assign inv v').observed.attachedEvents_ := by
  refine ⟨⟨_, rfl, ?_⟩, bindingWorld_flush_drops prefilter inv w element id v hown, ?_⟩
  · intro c hc hel
    have := flushEvents_userCalls _ _ _ _ c hc
    rw [hel] at this
    simp [BindingWorld.assign, BindingWorld.destroyElement] at this
  · intro h
    obtain ⟨h3, ev, hev, hid⟩ := bindingWorld_assign_mem inv _ v' id h
    have h2 : id ∈ ((w.destroyElement element).assign inv v).observed.attachedEvents_ := h3
    have h1 : id ∈ w.observed.attachedEvents_ :=
      (bindingWorld_assign_mem inv (w.destroyElement element) v id h2).1
    exact bindingWorld_flush_drops prefilter inv w element id v hown h1 ev hev hid

/-- C7 (amended), at a concrete input: the binding of element 1 has id 0; after the element
is destroyed, an assignment, a flush and one more assignment leave 0 out of the
attached-event list. -/
theorem dead_binding_not_invoked_then_pruned_witness :
    0 ∉ (((((emptyBindingWorld.createEvent 1).destroyElement 1).assign 99 5
        ).executeActiveEventsImmediately true).assign 99 6).observed.attachedEvents_ :=
  (dead_binding_not_invoked_then_pruned true 99 (emptyBindingWorld.createEvent 1) 1 0 5 6
    (by decide)).2.2

/-- C8 (counterexample): an element with handle 1 on which setup has recorded one event
clearer (for event 7) is destroyed: the destructor only removes the handle, the recorded
clearer is not run. -/
theorem destructor_does_not_run_unsetup :
    ((Element.new 1).setup
        { attributes := [{ name := 0, hasEventClear := true, eventId := 7 }] }).1.unsetup_
      = some [{ clear := true, id := 7 }] ∧
    Element.destructor (fun _ => none) ((Element.new 1).setup
        { attributes := [{ name := 0, hasEventClear := true, eventId := 7 }] }).1
      = [DomCall.remove 1] ∧
    DomCall.clear 7 ∉ Element.destructor (fun _ => none) ((Element.new 1).setup
        { attributes := [{ name := 0, hasEventClear := true, eventId := 7 }] }).1 := by
  have e : Element.destructor (fun _ => none) ((Element.new 1).setup
        { attributes := [{ name := 0, hasEventClear := true, eventId := 7 }] }).1
      = [DomCall.remove 1] := by
    simp [Element.setup, Element.new, Element.destructor, destroyAll, DestroyFn.call,
      Element.val, Element.destroy_, Element.children_]
  refine ⟨?_, e, ?_⟩
  · simp [Element.setup, Element.new, setupClearers, Element.unsetup_]
  · rw [e]; decide

/-- C8 (amended): destroying an element does not run its unsetup closure.  The destructor
destroys the children and then applies the destroy function to the native handle; no
recorded clearer is called by it.  The recorded clearers are run by slotFor and by
replaceElementImpl: each clearer that holds a callable is called exactly once, in recording
order, after the children are destroyed and before the native handle is replaced. -/
theorem destructor_skips_unsetup (parentOf : Val → Option Val) (e value : Element)
    (element : HtmlElement) (replacement : Val) :
    (∀ c ∈ e.destructor parentOf, DomCall.isClear c = false) ∧
      e.destructor parentOf
        = destroyAll parentOf e.children_ ++ e.destroy_.call parentOf e.val ∧
      (e.slotFor parentOf value).2
        = destroyAll parentOf e.children_
          ++ (((e.unsetup_.getD []).filter (fun c => c.clear)).map
              (fun c => DomCall.clear c.id))
          ++ [DomCall.replaceWith e.val value.val] ∧
      (e.replaceElementImpl parentOf element replacement).2
        = destroyAll parentOf e.children_
          ++ (((e.unsetup_.getD []).filter (fun c => c.clear)).map
              (fun c => DomCall.clear c.id))
          ++ [DomCall.replaceWith e.val replacement]
          ++ setupCalls replacement element.attributes := by
  refine ⟨destructor_no_clear parentOf e, element_destructor_eq parentOf e, ?_, ?_⟩
  · simp [Element.slotFor, runUnsetup_eq]
  · simp [Element.replaceElementImpl, runUnsetup_eq, Element.setup, Element.val]

/-- C9 (counterexample): b has itself been slotted for c (handle 3) before a.slotFor(b), so
the handle that a takes over is 3 and b's destroy function is already the no-op: destroying
b makes no call at all and does not remove the transferred handle. -/
theorem slotFor_slotted_value_keeps_handle :
    ((Element.new 1).slotFor (fun _ => none)
        ((Element.new 2).slotFor (fun _ => none) (Element.new 3)).1).1.val = 3 ∧
    ((Element.new 2).slotFor (fun _ => none) (Element.new 3)).1.val = 3 ∧
    Element.destructor (fun _ => none)
        ((Element.new 2).slotFor (fun _ => none) (Element.new 3)).1 = [] := by
  simp [Element.slotFor, Element.new, Element.val, Element.destructor, destroyAll,
    DestroyFn.call]

/-- C9 (amended): after a.slotFor(b) the element a holds b's native handle and a no-op
destroy function, and destroying a makes no call on any handle, so the transferred handle
stays in the tree.  Destroying b removes that handle provided b's own destroy function is
not the no-op (b was not itself slotted before): with the default destroyByRemove the
destructor of b ends with the call remove on the handle. -/
theorem slotFor_transfers_handle (parentOf : Val → Option Val) (a b : Element) :
    (a.slotFor parentOf b).1.val = b.val ∧
      (a.slotFor parentOf b).1.destroy_ = DestroyFn.doNotDestroy ∧
      (a.slotFor parentOf b).1.destructor parentOf = [] ∧
      (b.destroy_ = DestroyFn.destroyByRemove →
        b.destructor parentOf = destroyAll parentOf b.children_ ++ [DomCall.remove b.val]) ∧
      (b.destroy_ ≠ DestroyFn.doNotDestroy →
        ∃ c ∈ b.destructor parentOf, DomCall.removes b.val c = true) := by
  refine ⟨rfl, rfl, ?_, ?_, ?_⟩
  · simp [Element.slotFor, Element.destructor, destroyAll, DestroyFn.call]
  · intro h
    rw [element_destructor_eq, h]
    rfl
  · intro h
    rw [element_destructor_eq]
    cases hd : b.destroy_ with
    | destroyByRemove =>
      exact ⟨DomCall.remove b.val, by simp [DestroyFn.call], by simp [DomCall.removes]⟩
    | destroyByParentChildRemoval =>
      cases hp : parentOf b.val with
      | none =>
        exact ⟨DomCall.remove b.val, by simp [DestroyFn.call, hp], by simp [DomCall.removes]⟩
      | some parent =>
        exact ⟨DomCall.removeChild parent b.val, by simp [DestroyFn.call, hp],
          by simp [DomCall.removes]⟩
    | doNotDestroy => exact absurd hd h

/-- C9 (amended), at a concrete input: element 1 is slotted for the fresh element 2;
destroying the former makes no call, destroying the latter removes handle 2. -/
theorem slotFor_transfers_handle_witness :
    Element.destructor (fun _ => none)
        ((Element.new 1).slotFor (fun _ => none) (Element.new 2)).1 = [] ∧
    Element.destructor (fun _ => none) (Element.new 2)
      = destroyAll (fun _ => none) (Element.new 2).children_
        ++ [DomCall.remove (Element.new 2).val] :=
  ⟨(slotFor_transfers_handle (fun _ => none) (Element.new 1) (Element.new 2)).2.2.1,
   (slotFor_transfers_handle (fun _ => none) (Element.new 1) (Element.new 2)).2.2.2.1 rfl⟩

/-- C10 (counterexample): a one-shot id 1 is attached first and a repeating id 2 second;
update activates 2 before 1, which is not the order in which the ids were attached. -/
theorem update_activation_order_is_not_attach_order :
    activations ((attachAll [Attach.oneshot 1, Attach.repeating 2]).update
        (constEventEnv true) emptyMachine).2.log = [2, 1] ∧
      [Attach.oneshot 1, Attach.repeating 2].map Attach.id = [1, 2] := by
  constructor <;> rfl

/-- C10 (amended): update activates every entry of the repeating list once, in the order in
which these ids were attached, and after them every entry of the one-shot list once, in the
order in which those were attached; nothing else is activated. -/
theorem update_activates_repeating_then_oneshot (env : EventEnv S) (calls : List Attach)
    (m : Machine S) :
    activations ((attachAll calls).update env m).2.log
      = activations m.log ++ (repeatingIds calls ++ oneshotIds calls) := by
  rw [observedBase_update_log, activations_append, activations_map_activateEvent]
  simp [attachAll, foldl_apply_attachedEvents, foldl_apply_attachedOneshotEvents]

/-- C11: when the invalid id is never answered with a live handle, the repeating list after
update is the previous list restricted to the entries whose activation returned a live
handle, in the same relative order.  The loop that activates does not remove anything: it
leaves a list of the same length in which every live entry keeps its position and every dead
entry is overwritten by the invalid id; the dead entries are removed by one pass after
both activation loops. -/
theorem update_keeps_live_repeating_ids (env : EventEnv S) (o : ObservedBase) (m : Machine S)
    (hinv : ∀ s, (env.activateEvent s env.invalidEventId).2 = false) :
    (o.update env m).1.attachedEvents_
        = ((o.attachedEvents_.zip (activationOutcomes env o.attachedEvents_ m)).filter
            (fun p => p.2)).map (fun p => p.1) ∧
      (activateAttached env o.attachedEvents_ m).1.length = o.attachedEvents_.length ∧
      (activateAttached env o.attachedEvents_ m).1
        = (o.attachedEvents_.zip (activationOutcomes env o.attachedEvents_ m)).map
            (fun p => if p.2 then p.1 else env.invalidEventId) ∧
      (o.update env m).1.attachedEvents_
        = (activateAttached env o.attachedEvents_ m).1.filter
            (fun e => e ≠ env.invalidEventId) ∧
      (o.update env m).2
        = activateOneshot env o.attachedOneshotEvents_
            (activateAttached env o.attachedEvents_ m).2 := by
  refine ⟨?_, ?_, activateAttached_eq_zip env _ m, rfl, rfl⟩
  · rw [update_attachedEvents_general]
    congr 1
    apply List.filter_congr
    intro p hp
    have := activationOutcomes_invalid env hinv _ m p hp
    by_cases he : p.1 = env.invalidEventId
    · simp [this he]
    · simp [he]
  · rw [activateAttached_eq_zip, List.length_map, List.length_zip,
      activationOutcomes_length, Nat.min_self]

/-- C11, at a concrete input: with the ids 1, 2, 3, 4, 5 attached and the odd ids alive,
update leaves 1, 3, 5. -/
theorem update_keeps_live_repeating_ids_witness :
    (ObservedBase.update oddAliveEventEnv
        { attachedEvents_ := [1, 2, 3, 4, 5], attachedOneshotEvents_ := [] }
        emptyMachine).1.attachedEvents_
      = (([1, 2, 3, 4, 5].zip (activationOutcomes oddAliveEventEnv [1, 2, 3, 4, 5]
          emptyMachine)).filter (fun p => p.2)).map (fun p => p.1) ∧
    (([1, 2, 3, 4, 5].zip (activationOutcomes oddAliveEventEnv [1, 2, 3, 4, 5]
          emptyMachine)).filter (fun p => p.2)).map (fun p => p.1) = [1, 3, 5] :=
  ⟨(update_keeps_live_repeating_ids oddAliveEventEnv
      { attachedEvents_ := [1, 2, 3, 4, 5], attachedOneshotEvents_ := [] } emptyMachine
      (fun _ => rfl)).1, by decide⟩

/-- C12 (counterexample): an observed value with the repeating id 7 and the one-shot id 9
is assigned a new value.  The one-shot list is empty afterwards, and when the event 7 is
no longer registered the repeating list is empty too: the mutation itself drops the ids. -/
theorem assign_drops_attached_ids :
    (ModifiableObserved.assign (constEventEnv true)
        { attachedEvents_ := [7], attachedOneshotEvents_ := [9], contained_ := (0 : Nat) } 1
        emptyMachine).1.attachedOneshotEvents_ = [] ∧
    (ModifiableObserved.assign (constEventEnv false)
        { attachedEvents_ := [7], attachedOneshotEvents_ := [9], contained_ := (0 : Nat) } 1
        emptyMachine).1.attachedEvents_ = [] := by
  constructor <;> rfl

/-- C12 (amended): a mutation that notifies runs update once, and update shrinks the lists
itself: it empties the one-shot list and keeps in the repeating list, in their old order,
exactly the entries whose activation returned a handle and that are not the invalid id.
Every mutation of an observed value or container either leaves both lists as they were (it
did not notify) or leaves them as one run of update does. -/
theorem notifying_mutation_shrinks_lists [DecidableEq α] (env : Env S) (o : ObservedBase)
    (m : Machine S) (op : Mutation α β) (w : World S α β) :
    (o.update env.toEventEnv m).1.attachedOneshotEvents_ = [] ∧
      (o.update env.toEventEnv m).1.attachedEvents_
        = ((o.attachedEvents_.zip
              (activationOutcomes env.toEventEnv o.attachedEvents_ m)).filter
            (fun p => p.2 && decide (p.1 ≠ env.invalidEventId))).map (fun p => p.1) ∧
      (o.update env.toEventEnv m).1.attachedEvents_.Sublist o.attachedEvents_ ∧
      ((op.run env w).value.toObservedBase = w.value.toObservedBase ∨
        ∃ m' : Machine S,
          (op.run env w).value.toObservedBase
            = (w.value.toObservedBase.update env.toEventEnv m').1) ∧
      ((op.run env w).container.toObservedBase = w.container.toObservedBase ∨
        ∃ m' : Machine S,
          (op.run env w).container.toObservedBase
            = (w.container.toObservedBase.update env.toEventEnv m').1) :=
  ⟨rfl, update_attachedEvents_general env.toEventEnv o m,
   update_attachedEvents_sublist env.toEventEnv o m,
   mutation_run_value_lists env op w, mutation_run_container_lists env op w⟩

/-- C13 (counterexample): attaching the id 7 twice to an observed value without
attachments leaves two entries, while attaching it once leaves one. -/
theorem attachEvent_twice_adds_two_entries :
    ((ObservedBase.attachEvent { attachedEvents_ := [], attachedOneshotEvents_ := [] }
        7).attachEvent 7).attachedEvents_ = [7, 7] ∧
    ((ObservedBase.attachEvent { attachedEvents_ := [], attachedOneshotEvents_ := [] }
        7).attachEvent 7).attachedEventCount = 2 ∧
    (ObservedBase.attachEvent { attachedEvents_ := [], attachedOneshotEvents_ := [] }
        7).attachedEventCount = 1 := by
  refine ⟨?_, ?_, ?_⟩ <;> rfl

/-- C13 (amended): attachEvent appends the id to the attached-event list without looking
for an earlier entry: every call adds one entry and raises attachedEventCount by one, so
attaching an id twice leaves two entries of it; the one-shot list is not touched. -/
theorem attachEvent_appends (o : ObservedBase) (eventId : EventIdType) :
    (o.attachEvent eventId).attachedEvents_ = o.attachedEvents_ ++ [eventId] ∧
      (o.attachEvent eventId).attachedEventCount = o.attachedEventCount + 1 ∧
      ((o.attachEvent eventId).attachEvent eventId).attachedEvents_
        = o.attachedEvents_ ++ [eventId, eventId] ∧
      ((o.attachEvent eventId).attachEvent eventId).attachedEventCount
        = o.attachedEventCount + 2 ∧
      (o.attachEvent eventId).attachedOneshotEvents_ = o.attachedOneshotEvents_ := by
  simp [ObservedBase.attachEvent, ObservedBase.attachedEventCount]

/-- C14: unattachEvent is idempotent.  One call leaves the repeating list with every
occurrence of the id removed and the other ids in their original order, and leaves the
one-shot list as it was; a second call changes nothing. -/
theorem unattachEvent_idempotent (o : ObservedBase) (eventId : EventIdType) :
    (o.unattachEvent eventId).unattachEvent eventId = o.unattachEvent eventId ∧
      (o.unattachEvent eventId).attachedEvents_
        = o.attachedEvents_.filter (fun e => e ≠ eventId) ∧
      eventId ∉ (o.unattachEvent eventId).attachedEvents_ ∧
      (o.unattachEvent eventId).attachedEvents_.Sublist o.attachedEvents_ ∧
      (∀ e ∈ o.attachedEvents_, e ≠ eventId → e ∈ (o.unattachEvent eventId).attachedEvents_) ∧
      (o.unattachEvent eventId).attachedOneshotEvents_ = o.attachedOneshotEvents_ := by
  refine ⟨?_, rfl, ?_, ?_, ?_, rfl⟩
  · simp [ObservedBase.unattachEvent, List.filter_filter]
  · simp [ObservedBase.unattachEvent, List.mem_filter]
  · exact List.filter_sublist _
  · intro e he hne
    simp [ObservedBase.unattachEvent, List.mem_filter, he, hne]

/-- C16: every bulk operation of the observed container (whole-container assignment, the
three assign overloads, clear, swap) stores the contents the underlying container operation
produces, calls reset(new size, true) on the range context once, and then runs update once:
the call log gains the reset followed by one activation of every attached id, and neither a
flush nor a call of insertModificationRange. -/
theorem bulk_operation_resets_then_notifies (env : Env S) (o : ObservedContainer β)
    (m : Machine S) (t range ilist other : List β) (count : Nat) (value : β) :
    (ObservedContainer.operatorAssign env o t m
        = ModifiableObserved.update env.toEventEnv { o with contained_ := t }
            (Machine.reset env m t.length true) ∧
      ObservedContainer.assignCount env o count value m
        = ModifiableObserved.update env.toEventEnv
            { o with contained_ := List.replicate count value }
            (Machine.reset env m count true) ∧
      ObservedContainer.assignRange env o range m
        = ModifiableObserved.update env.toEventEnv { o with contained_ := range }
            (Machine.reset env m range.length true) ∧
      ObservedContainer.assignList env o ilist m
        = ModifiableObserved.update env.toEventEnv { o with contained_ := ilist }
            (Machine.reset env m ilist.length true) ∧
      ObservedContainer.clear env o m
        = ModifiableObserved.update env.toEventEnv { o with contained_ := [] }
            (Machine.reset env m 0 true) ∧
      ObservedContainer.swap env o other m
        = (ModifiableObserved.update env.toEventEnv { o with contained_ := other }
            (Machine.reset env m other.length true), o.contained_)) ∧
    ∀ contents : List β,
      (ModifiableObserved.update env.toEventEnv { o with contained_ := contents }
          (Machine.reset env m contents.length true)).1.contained_ = contents ∧
      (ModifiableObserved.update env.toEventEnv { o with contained_ := contents }
          (Machine.reset env m contents.length true)).2.log
        = m.log ++ Call.reset contents.length true
            :: (o.attachedEvents_ ++ o.attachedOneshotEvents_).map Call.activateEvent ∧
      flushCount (ModifiableObserved.update env.toEventEnv { o with contained_ := contents }
          (Machine.reset env m contents.length true)).2.log = flushCount m.log ∧
      insertCallCount
          (ModifiableObserved.update env.toEventEnv { o with contained_ := contents }
            (Machine.reset env m contents.length true)).2.log = insertCallCount m.log := by
  refine ⟨⟨?_, ?_, ?_, ?_, ?_, ?_⟩, ?_⟩
  · simp [ObservedContainer.operatorAssign, observedContainer_update_false]
  · simp [ObservedContainer.assignCount, observedContainer_update_false]
  · simp [ObservedContainer.assignRange, observedContainer_update_false]
  · simp [ObservedContainer.assignList, observedContainer_update_false]
  · simp [ObservedContainer.clear, observedContainer_update_false]
  · simp [ObservedContainer.swap, observedContainer_update_false]
  · intro contents
    have h := reset_then_update env ({ o with contained_ := contents } : ObservedContainer β) m
      contents.length
    simpa [observedContainer_update_false] using h

/-- C17: when the first attempt and the three retries of insertRangeChecked all answer
Retry, insertModificationRange is called exactly four times, then the range context is reset
once to the current size of the container (reset(size, true)), then update runs once and
activates every attached id, and last the events are flushed once. -/
theorem insertRangeChecked_exhausted_retries_reset (env : Env S) (o : ObservedContainer α)
    (low high : Nat) (type : RangeStateType) (m : Machine S)
    (h : ∀ n, n < 4 →
      (env.insertModificationRange
        (afterInsertCalls env o.contained_.length low high type n m.ext)
        o.contained_.length low high type).2 = InsertResult.Retry) :
    (ObservedContainer.insertRangeChecked env o low high type m).2.log
        = m.log
          ++ List.replicate 4 (Call.insertModificationRange o.contained_.length low high type)
          ++ [Call.reset o.contained_.length true]
          ++ (o.attachedEvents_ ++ o.attachedOneshotEvents_).map Call.activateEvent
          ++ [Call.executeActiveEventsImmediately] ∧
      (ObservedContainer.insertRangeChecked env o low high type m).1.contained_
        = o.contained_ ∧
      insertCallCount (ObservedContainer.insertRangeChecked env o low high type m).2.log
        = insertCallCount m.log + 4 ∧
      (ObservedContainer.insertRangeChecked env o low high type m).2.log.count
          (Call.reset o.contained_.length true)
        = m.log.count (Call.reset o.contained_.length true) + 1 := by
  have h0 := h 0 (by omega)
  have h1 := h 1 (by omega)
  have h2 := h 2 (by omega)
  have h3 := h 3 (by omega)
  simp only [afterInsertCalls] at h0 h1 h2 h3
  have e : ObservedContainer.insertRangeChecked env o low high type m
      = (let u := ModifiableObserved.update env.toEventEnv o
          (Machine.reset env
            { ext := afterInsertCalls env o.contained_.length low high type 4 m.ext,
              log := m.log ++ List.replicate 4
                (Call.insertModificationRange o.contained_.length low high type) }
            o.contained_.length true)
         (u.1, Machine.executeActiveEventsImmediately env u.2)) := by
    rw [ObservedContainer.insertRangeChecked, doInsert]
    simp only [Machine.insertModificationRange, h0]
    rw [doInsert]
    simp only [Machine.insertModificationRange, h1]
    rw [doInsert]
    simp only [Machine.insertModificationRange, h2]
    rw [doInsert]
    simp only [Machine.insertModificationRange, h3]
    simp [observedContainer_update_false, afterInsertCalls, List.replicate]
  rw [e]
  refine ⟨?_, rfl, ?_, ?_⟩
  · simp [Machine.executeActiveEventsImmediately, modifiableObserved_update_log,
      Machine.reset]
  · simp only [Machine.executeActiveEventsImmediately, modifiableObserved_update_log,
      Machine.reset, insertCallCount_append, insertCallCount_map_activateEvent]
    simp [insertCallCount, Call.isInsertModificationRange, List.countP_replicate]
  · simp only [Machine.executeActiveEventsImmediately, modifiableObserved_update_log,
      Machine.reset, List.count_append]
    simp [List.count_replicate, List.count_cons, count_reset_map_activateEvent]

/-- C17, at a concrete input: a range context that always answers Retry, an empty container
without attachments. -/
theorem insertRangeChecked_exhausted_retries_reset_witness :
    (ObservedContainer.insertRangeChecked (constEnv true InsertResult.Retry)
        emptyWorld.container 0 0 RangeStateType.Insert emptyMachine).2.log
      = emptyMachine.log
        ++ List.replicate 4 (Call.insertModificationRange emptyWorld.container.contained_.length
            0 0 RangeStateType.Insert)
        ++ [Call.reset emptyWorld.container.contained_.length true]
        ++ (emptyWorld.container.attachedEvents_
            ++ emptyWorld.container.attachedOneshotEvents_).map Call.activateEvent
        ++ [Call.executeActiveEventsImmediately] :=
  (insertRangeChecked_exhausted_retries_reset (constEnv true InsertResult.Retry)
    emptyWorld.container 0 0 RangeStateType.Insert emptyMachine (fun _ _ => rfl)).1

/-- C15: releasing the proxy returned by modify runs update(true) once and always returns
normally.  The value changed through the proxy stays; the release makes one pass over the
attached ids, activating each at most once and all of them when no activation throws, in
which case it is exactly one run of update, whether or not the value was changed.  An
exception thrown by an activation ends the pass and is swallowed.  For an observed container
the release first calls reset(current size, true) on the range context and then notifies in
the same way. -/
theorem proxy_release_notifies_once (env : ThrowingEventEnv S) (env0 : Env S)
    (reset : S → Nat → Bool → S) (o : ModifiableObserved α) (f : α → α)
    (c : ObservedContainer β) (g : List β → List β) (m : Machine S) :
    (ModificationProxy.release env { o with contained_ := f o.contained_ } m).1.contained_
        = f o.contained_ ∧
      (∃ k, k ≤ (o.attachedEvents_ ++ o.attachedOneshotEvents_).length ∧
        (ModificationProxy.release env { o with contained_ := f o.contained_ } m).2.log
          = m.log ++ ((o.attachedEvents_ ++ o.attachedOneshotEvents_).take k).map
              Call.activateEvent) ∧
      ModificationProxy.release env0.toEventEnv.toThrowing
          { o with contained_ := f o.contained_ } m
        = ModifiableObserved.update env0.toEventEnv { o with contained_ := f o.contained_ } m ∧
      ModificationProxy.release env0.toEventEnv.toThrowing
          { o with contained_ := f o.contained_ } m
        = ModifiableObserved.modify env0.toEventEnv o f m ∧
      (ModificationProxy.release env0.toEventEnv.toThrowing
          { o with contained_ := f o.contained_ } m).2.log
        = m.log ++ (o.attachedEvents_ ++ o.attachedOneshotEvents_).map Call.activateEvent ∧
      (ModificationProxy.releaseContainer env reset
          { c with contained_ := g c.contained_ } m).1.contained_ = g c.contained_ ∧
      (∃ k, k ≤ (c.attachedEvents_ ++ c.attachedOneshotEvents_).length ∧
        (ModificationProxy.releaseContainer env reset
            { c with contained_ := g c.contained_ } m).2.log
          = m.log ++ [Call.reset (g c.contained_).length true]
            ++ ((c.attachedEvents_ ++ c.attachedOneshotEvents_).take k).map
                Call.activateEvent) ∧
      ModificationProxy.releaseContainer env0.toEventEnv.toThrowing env0.reset
          { c with contained_ := g c.contained_ } m
        = ObservedContainer.update env0 { c with contained_ := g c.contained_ } true m := by
  refine ⟨release_contained env _ m, release_log env { o with contained_ := f o.contained_ } m,
    release_toThrowing _ _ m, ?_, ?_, release_contained env _ _, ?_, ?_⟩
  · rw [release_toThrowing]; rfl
  · rw [release_toThrowing, modifiableObserved_update_log]
  · exact release_log env ({ c with contained_ := g c.contained_ } : ObservedContainer β)
      { ext := reset m.ext (g c.contained_).length true,
        log := m.log ++ [Call.reset (g c.contained_).length true] }
  · simp [ModificationProxy.releaseContainer, release_toThrowing, ObservedContainer.update,
      Machine.reset]

/-- C18: createEvent of an Observed attribute registers one event, for the given element,
and attaches the id of exactly that event to the observed value: the attached-event list
gains this one id at its end and attachedEventCount grows by one, the one-shot list and the
contained value stay.  The liveness check of the event is true iff the weak handle of the
element has not expired.  The callback of a live element applies the user function once, to
the element and the value passed as the current contents, and returns true; the callback of
an expired element returns false and applies nothing. -/
theorem createEvent_registers_and_attaches_one_event (w : BindingWorld α) (element : Nat)
    (expired : Nat → Bool) (value : α) :
    (w.createEvent element).machine.ext.events
        = w.machine.ext.events
          ++ [{ id := w.machine.ext.nextId, element := element, active := false }] ∧
      (w.createEvent element).observed.attachedEvents_
        = w.observed.attachedEvents_ ++ [w.machine.ext.nextId] ∧
      (w.createEvent element).observed.toObservedBase.attachedEventCount
        = w.observed.toObservedBase.attachedEventCount + 1 ∧
      (w.createEvent element).observed.attachedOneshotEvents_
        = w.observed.attachedOneshotEvents_ ∧
      (w.createEvent element).observed.contained_ = w.observed.contained_ ∧
      (attributeIsAlive expired element = true ↔ expired element = false) ∧
      (expired element = false →
        attributeCallback expired element value = (true, [(element, value)])) ∧
      (expired element = true → attributeCallback expired element value = (false, [])) := by
  refine ⟨rfl, rfl, ?_, rfl, rfl, ?_, ?_, ?_⟩
  · simp [BindingWorld.createEvent, ObservedBase.attachEvent, ObservedBase.attachedEventCount]
  · simp [attributeIsAlive]
  · intro h; simp [attributeCallback, h]
  · intro h; simp [attributeCallback, h]

/-- C18, at a concrete input: the first binding of an empty world gets the id 0; the callback
for the live element 1 applies the user function to element 1 and the value 5, the callback
for the expired element 1 applies nothing. -/
theorem createEvent_registers_and_attaches_one_event_witness :
    attributeCallback (fun _ => false) 1 (5 : Nat) = (true, [(1, 5)]) ∧
    attributeCallback (fun _ => true) 1 (5 : Nat) = (false, []) ∧
    (emptyBindingWorld.createEvent 1).observed.attachedEvents_ = [0] :=
  ⟨(createEvent_registers_and_attaches_one_event emptyBindingWorld 1 (fun _ => false)
      5).2.2.2.2.2.2.1 rfl,
   (createEvent_registers_and_attaches_one_event emptyBindingWorld 1 (fun _ => true)
      5).2.2.2.2.2.2.2 rfl,
   (createEvent_registers_and_attaches_one_event emptyBindingWorld 1 (fun _ => true)
      5).2.1⟩

/-- C19: when the stable element holds an element and its reset flag is not set, invoking
the renderer returned by stabilize does not invoke the encapsulated renderer: its only call
is the renderer nil, whose result it returns, and the stable element with the held element
(node, native handle, recorded bindings) is left exactly as it was. -/
theorem stabilize_does_not_rerender (parentOf : Val → Option Val) (env : RenderEnv)
    (stableElement : StableElement) (e : Element)
    (hheld : stableElement.stableElement_ = some e) (hreset : stableElement.reset_ = false) :
    (stabilize parentOf env stableElement).1 = stableElement ∧
      (stabilize parentOf env stableElement).1.stableElement_ = some e ∧
      (stabilize parentOf env stableElement).2.1 = env.nil ∧
      (stabilize parentOf env stableElement).2.2 = [RenderCall.nil] ∧
      (∀ val, RenderCall.encapsulatedRenderer val
        ∉ (stabilize parentOf env stableElement).2.2) := by
  rw [stabilize_held parentOf env stableElement e hheld hreset]
  exact ⟨rfl, hheld, rfl, rfl, by simp⟩

/-- C19, at a concrete input: a stable element that was rendered once is rendered again. -/
theorem stabilize_does_not_rerender_witness :
    (stabilize (fun _ => none) sampleRenderEnv
        { stableElement_ := some (Element.new 11), reset_ := false }).2.2
      = [RenderCall.nil] :=
  (stabilize_does_not_rerender (fun _ => none) sampleRenderEnv
    { stableElement_ := some (Element.new 11), reset_ := false } (Element.new 11) rfl rfl).2.2.2.1

/-- C20: reset only sets the flag: the held element stays as it is.  The next render through
stabilize then rebuilds: it invokes the encapsulated renderer once, on a new div element,
stores the result and clears the flag.  A further render without another reset invokes only
the renderer nil and leaves the rebuilt element in place. -/
theorem reset_rebuilds_on_next_render_only (parentOf : Val → Option Val) (env env2 : RenderEnv)
    (stableElement : StableElement) :
    stableElement.reset.stableElement_ = stableElement.stableElement_ ∧
      stableElement.reset.reset_ = true ∧
      (stabilize parentOf env stableElement.reset).1
        = { stableElement_ := some (env.encapsulatedRenderer
              ((Element.new env.div).setup { attributes := [] }).1).1,
            reset_ := false } ∧
      (stabilize parentOf env stableElement.reset).2.2.count
          (RenderCall.encapsulatedRenderer env.div) = 1 ∧
      RenderCall.nil ∉ (stabilize parentOf env stableElement.reset).2.2 ∧
      stabilize parentOf env2 (stabilize parentOf env stableElement.reset).1
        = ((stabilize parentOf env stableElement.reset).1, env2.nil, [RenderCall.nil]) := by
  have h := stabilize_rebuild parentOf env stableElement.reset (Or.inl rfl)
  refine ⟨rfl, rfl, h.1, h.2.1, h.2.2, ?_⟩
  exact stabilize_held parentOf env2 _ _ (by rw [h.1]) (by rw [h.1])

/-- C21: assigning v to the element at a valid index pos through the reference wrapper of
operator[] or at leaves a container of the same size that holds v at pos and the old
elements everywhere else, and hands one edit to the range context: every call of
insertModificationRange it makes carries the Modify range with low = high = pos at the
unchanged size; there is one such call, repeated only while the range context answers
Retry (at most four in all). -/
theorem referenceAssign_replaces_and_records_modify (env : Env S) (owner : ObservedContainer β)
    (pos : Nat) (v : β) (m : Machine S) (hpos : pos < owner.contained_.length) :
    (ReferenceWrapper.assign env owner pos v m).1.contained_ = owner.contained_.set pos v ∧
      (ReferenceWrapper.assign env owner pos v m).1.contained_.length
        = owner.contained_.length ∧
      (ReferenceWrapper.assign env owner pos v m).1.contained_[pos]? = some v ∧
      (∀ i, i ≠ pos →
        (ReferenceWrapper.assign env owner pos v m).1.contained_[i]? = owner.contained_[i]?) ∧
      (∃ n, 1 ≤ n ∧ n ≤ 4 ∧
        recordedEdits (ReferenceWrapper.assign env owner pos v m).2.log
          = recordedEdits m.log ++ List.replicate n
              { size := owner.contained_.length, low := pos, high := pos,
                type := RangeStateType.Modify }) ∧
      ((env.insertModificationRange m.ext owner.contained_.length pos pos
          RangeStateType.Modify).2 ≠ InsertResult.Retry →
        recordedEdits (ReferenceWrapper.assign env owner pos v m).2.log
          = recordedEdits m.log
            ++ [{ size := owner.contained_.length, low := pos, high := pos,
                  type := RangeStateType.Modify }]) := by
  have hc : (ReferenceWrapper.assign env owner pos v m).1.contained_
      = owner.contained_.set pos v := by
    simp [ReferenceWrapper.assign, insertRangeChecked_contained]
  refine ⟨hc, ?_, ?_, ?_, ?_, ?_⟩
  · rw [hc, List.length_set]
  · rw [hc]; simp [hpos]
  · intro i hi
    rw [hc, List.getElem?_set_ne (Ne.symm hi)]
  · have := insertRangeChecked_recordedEdits env
      ({ owner with contained_ := owner.contained_.set pos v } : ObservedContainer β)
      pos pos RangeStateType.Modify m
    simpa [ReferenceWrapper.assign] using this
  · intro h
    have := insertRangeChecked_recordedEdits_single env
      ({ owner with contained_ := owner.contained_.set pos v } : ObservedContainer β)
      pos pos RangeStateType.Modify m (by simpa using h)
    simpa [ReferenceWrapper.assign] using this

/-- C21, at a concrete input: in a container holding 10, 20, 30, 40 the element at index 2
is assigned 99. -/
theorem referenceAssign_replaces_and_records_modify_witness :
    (ReferenceWrapper.assign (constEnv true InsertResult.Final)
        { attachedEvents_ := [], attachedOneshotEvents_ := [], contained_ := [10, 20, 30, 40] }
        2 99 emptyMachine).1.contained_ = [10, 20, 99, 40] ∧
    recordedEdits (ReferenceWrapper.assign (constEnv true InsertResult.Final)
        { attachedEvents_ := [], attachedOneshotEvents_ := [], contained_ := [10, 20, 30, 40] }
        2 99 emptyMachine).2.log
      = [{ size := 4, low := 2, high := 2, type := RangeStateType.Modify }] :=
  ⟨(referenceAssign_replaces_and_records_modify (constEnv true InsertResult.Final)
      { attachedEvents_ := [], attachedOneshotEvents_ := [], contained_ := [10, 20, 30, 40] }
      2 99 emptyMachine (by decide)).1,
   (referenceAssign_replaces_and_records_modify (constEnv true InsertResult.Final)
      { attachedEvents_ := [], attachedOneshotEvents_ := [], contained_ := [10, 20, 30, 40] }
      2 99 emptyMachine (by decide)).2.2.2.2.2 (by decide)⟩

/-- C22 (counterexample): a combinator over two observed values is bound to element 1; the
binding registers one event, not two, and attaches its id 0 to both values. -/
theorem combinator_binding_registers_single_event :
    (combinatorCreateEvent attachToConstituents { events := [], nextId := 0 }
        [{ attachedEvents_ := [], attachedOneshotEvents_ := [] },
         { attachedEvents_ := [], attachedOneshotEvents_ := [] }] 1).1.events.length = 1 ∧
    (combinatorCreateEvent attachToConstituents { events := [], nextId := 0 }
        [{ attachedEvents_ := [], attachedOneshotEvents_ := [] },
         { attachedEvents_ := [], attachedOneshotEvents_ := [] }] 1).2
      = [{ attachedEvents_ := [0], attachedOneshotEvents_ := [] },
         { attachedEvents_ := [0], attachedOneshotEvents_ := [] }] := by
  constructor <;> rfl

/-- C22 (amended): binding a combinator to an element attribute registers exactly one event,
whatever the combinator is and however many observed values it has, and hands the id of that
one event to the attachEvent of the combinator; with an attachEvent that attaches to every
constituent, each of the n constituents gets this same id attached once. -/
theorem combinator_binding_registers_one_event {C : Type} (attachEvent : C → EventIdType → C)
    (registry : EventRegistry) (combinator_ : C) (element : Nat)
    (constituents : List ObservedBase) :
    (combinatorCreateEvent attachEvent registry combinator_ element).1.events
        = registry.events
          ++ [{ id := registry.nextId, element := element, active := false }] ∧
      (combinatorCreateEvent attachEvent registry combinator_ element).1.events.length
        = registry.events.length + 1 ∧
      (combinatorCreateEvent attachEvent registry combinator_ element).2
        = attachEvent combinator_ registry.nextId ∧
      (combinatorCreateEvent attachToConstituents registry constituents element).1.events.length
        = registry.events.length + 1 ∧
      (combinatorCreateEvent attachToConstituents registry constituents element).2
        = constituents.map (fun o => o.attachEvent registry.nextId) ∧
      (combinatorCreateEvent attachToConstituents registry constituents element).2.length
        = constituents.length := by
  refine ⟨rfl, ?_, rfl, ?_, rfl, ?_⟩
  · simp [combinatorCreateEvent, EventRegistry.registerEvent]
  · simp [combinatorCreateEvent, EventRegistry.registerEvent]
  · simp [combinatorCreateEvent, attachToConstituents]

/-- C23: insert(w, descriptor) on an element with n children leaves n + 1 children: the old
children in their old order with the new child at position min(w, n).  When the native
siblings are the handles of the children, all distinct, and the new handle is not among
them, the native insertion yields the handles of the new child sequence, again distinct: the
owned child sequence and the native sibling order stay equal. -/
theorem insert_child_keeps_sibling_order (e : Element) (w : Nat) (element : HtmlElement)
    (val : Val) (siblings : List Val) (hsiblings : siblings = e.children_.map Element.val)
    (hnodup : siblings.Nodup) (hfresh : val ∉ siblings) :
    (e.insert w element val).1.children_
        = e.children_.take w ++ Element.makeElement val element :: e.children_.drop w ∧
      (e.insert w element val).1.children_.length = e.children_.length + 1 ∧
      (e.insert w element val).1.children_[min w e.children_.length]?
        = some (Element.makeElement val element) ∧
      (Element.makeElement val element).val = val ∧
      (e.insert w element val).2.apply siblings
        = some ((e.insert w element val).1.children_.map Element.val) ∧
      ((e.insert w element val).1.children_.map Element.val).Nodup := by
  have hc := element_insert_children e w element val
  have hmap : (e.insert w element val).1.children_.map Element.val
      = siblings.take w ++ val :: siblings.drop w := by
    rw [hc, hsiblings]
    simp [List.map_take, List.map_drop, makeElement_val]
  refine ⟨hc, ?_, ?_, rfl, ?_, ?_⟩
  · rw [hc]
    simp only [List.length_append, List.length_cons, List.length_take, List.length_drop]
    omega
  · rw [hc]
    have hl : (e.children_.take w).length = min w e.children_.length := by
      simp [List.length_take]
    rw [← hl, List.getElem?_append_right (Nat.le_refl _)]
    simp
  · rw [hmap, hsiblings]
    exact element_insert_native e w element val (hsiblings ▸ hnodup)
  · rw [hmap]
    exact nodup_insert_middle siblings w val hnodup hfresh

/-- C23, at a concrete input: an element with the children 1 and 2 gets a new child with
handle 9 at index 1. -/
theorem insert_child_keeps_sibling_order_witness :
    (Element.insert (Element.mk 0 DestroyFn.destroyByRemove [Element.new 1, Element.new 2] none)
        1 { attributes := [] } 9).2.apply [1, 2]
      = some (((Element.insert
          (Element.mk 0 DestroyFn.destroyByRemove [Element.new 1, Element.new 2] none)
          1 { attributes := [] } 9).1.children_).map Element.val) :=
  (insert_child_keeps_sibling_order
    (Element.mk 0 DestroyFn.destroyByRemove [Element.new 1, Element.new 2] none)
    1 { attributes := [] } 9 [1, 2] rfl (by decide) (by decide)).2.2.2.2.1

/-- C24 (code defect): emplace with two constructor arguments at position 1
of a container holding 10 and 20 inserts the one element 15 at position 1, as insert does,
but hands the range context the Insert range with low 1 and high 3, where insert at the same
position hands over low 1 and high 1. -/
theorem emplace_records_argument_count :
    (ObservedContainer.emplace finalEnv sampleContainer 1 2 15 emptyMachine).1.contained_
      = [10, 15, 20] ∧
    (ObservedContainer.insert finalEnv sampleContainer 1 15 emptyMachine).1.contained_
      = [10, 15, 20] ∧
    recordedEdits (ObservedContainer.emplace finalEnv sampleContainer 1 2 15 emptyMachine).2.log
      = [{ size := 3, low := 1, high := 3, type := RangeStateType.Insert }] ∧
    recordedEdits (ObservedContainer.insert finalEnv sampleContainer 1 15 emptyMachine).2.log
      = [{ size := 3, low := 1, high := 1, type := RangeStateType.Insert }] := by
  refine ⟨?_, ?_, ?_, ?_⟩
  · simp only [ObservedContainer.emplace, finalEnv_contained]; rfl
  · simp only [ObservedContainer.insert, finalEnv_contained]; rfl
  · simp only [ObservedContainer.emplace, finalEnv_recordedEdits]; rfl
  · simp only [ObservedContainer.insert, finalEnv_recordedEdits]; rfl

/-- C25 (code defect): inserting one element at position 1 of a container
holding 10 and 20 through the count overload hands over the Insert range with low 1 and
high 2, where the single-element overload hands over low 1 and high 1; inserting the two
elements 15 and 16 through the iterator and the initializer-list overloads hands over low 1
and high 3, although the inserted indices are 1 and 2. -/
theorem multi_insert_records_one_past_last :
    (ObservedContainer.insertCount finalEnv sampleContainer 1 1 15 emptyMachine).1.contained_
      = [10, 15, 20] ∧
    recordedEdits
        (ObservedContainer.insertCount finalEnv sampleContainer 1 1 15 emptyMachine).2.log
      = [{ size := 3, low := 1, high := 2, type := RangeStateType.Insert }] ∧
    recordedEdits (ObservedContainer.insert finalEnv sampleContainer 1 15 emptyMachine).2.log
      = [{ size := 3, low := 1, high := 1, type := RangeStateType.Insert }] ∧
    (ObservedContainer.insertRange finalEnv sampleContainer 1 [15, 16]
        emptyMachine).1.contained_ = [10, 15, 16, 20] ∧
    recordedEdits
        (ObservedContainer.insertRange finalEnv sampleContainer 1 [15, 16] emptyMachine).2.log
      = [{ size := 4, low := 1, high := 3, type := RangeStateType.Insert }] ∧
    recordedEdits
        (ObservedContainer.insertList finalEnv sampleContainer 1 [15, 16] emptyMachine).2.log
      = [{ size := 4, low := 1, high := 3, type := RangeStateType.Insert }] := by
  refine ⟨?_, ?_, ?_, ?_, ?_, ?_⟩
  · simp only [ObservedContainer.insertCount, finalEnv_contained]; rfl
  · simp only [ObservedContainer.insertCount, finalEnv_recordedEdits]; rfl
  · simp only [ObservedContainer.insert, finalEnv_recordedEdits]; rfl
  · simp only [ObservedContainer.insertRange, finalEnv_contained]; rfl
  · simp only [ObservedContainer.insertRange, finalEnv_recordedEdits]; rfl
  · simp only [ObservedContainer.insertList, finalEnv_recordedEdits]; rfl

/-- C26 (code defect): on a container holding 10 and 20 with the event 7
attached, resize(2) and erase(first, last) with first = last = 1 leave the contents as they
are, but each hands an Erase range to the range context (low = high = 2, respectively
low = high = 1) and activates the event 7. -/
theorem unchanged_container_records_erase :
    (ObservedContainer.resize finalEnv sampleContainer 2 0 emptyMachine).1.contained_
      = [10, 20] ∧
    recordedEdits (ObservedContainer.resize finalEnv sampleContainer 2 0 emptyMachine).2.log
      = [{ size := 2, low := 2, high := 2, type := RangeStateType.Erase }] ∧
    activations (ObservedContainer.resize finalEnv sampleContainer 2 0 emptyMachine).2.log
      = [7] ∧
    (ObservedContainer.eraseRange finalEnv sampleContainer 1 1 emptyMachine).1.contained_
      = [10, 20] ∧
    recordedEdits (ObservedContainer.eraseRange finalEnv sampleContainer 1 1 emptyMachine).2.log
      = [{ size := 2, low := 1, high := 1, type := RangeStateType.Erase }] ∧
    activations (ObservedContainer.eraseRange finalEnv sampleContainer 1 1 emptyMachine).2.log
      = [7] ∧
    recordedEdits (ObservedContainer.erase finalEnv sampleContainer 1 emptyMachine).2.log
      = [{ size := 1, low := 1, high := 1, type := RangeStateType.Erase }] := by
  have hr : ¬ (sampleContainer.contained_.length < 2) := by decide
  refine ⟨?_, ?_, ?_, ?_, ?_, ?_, ?_⟩
  · simp only [ObservedContainer.resize, hr, if_false, finalEnv_contained]; rfl
  · simp only [ObservedContainer.resize, hr, if_false, finalEnv_recordedEdits]; rfl
  · simp only [ObservedContainer.resize, hr, if_false, finalEnv_activations]; rfl
  · simp only [ObservedContainer.eraseRange, finalEnv_contained]; rfl
  · simp only [ObservedContainer.eraseRange, finalEnv_recordedEdits]; rfl
  · simp only [ObservedContainer.eraseRange, finalEnv_activations]; rfl
  · simp only [ObservedContainer.erase, finalEnv_recordedEdits]; rfl

/-- C27 (code defect): on a string of the four characters 1, 2, 3, 4,
erase(1, 1) removes the one character at index 1 and erase(1, 2) removes the two characters
at the indices 1 and 2, but both hand over the Erase range with low 1 and high 4, the old
length: the recorded range does not depend on count and does not end at the last removed
position. -/
theorem string_erase_records_old_length :
    (ObservedString.erase finalEnv
        { attachedEvents_ := [], attachedOneshotEvents_ := [], contained_ := [1, 2, 3, 4] }
        1 1 emptyMachine).1.contained_ = [1, 3, 4] ∧
    recordedEdits (ObservedString.erase finalEnv
        { attachedEvents_ := [], attachedOneshotEvents_ := [], contained_ := [1, 2, 3, 4] }
        1 1 emptyMachine).2.log
      = [{ size := 3, low := 1, high := 4, type := RangeStateType.Erase }] ∧
    (ObservedString.erase finalEnv
        { attachedEvents_ := [], attachedOneshotEvents_ := [], contained_ := [1, 2, 3, 4] }
        1 2 emptyMachine).1.contained_ = [1, 4] ∧
    recordedEdits (ObservedString.erase finalEnv
        { attachedEvents_ := [], attachedOneshotEvents_ := [], contained_ := [1, 2, 3, 4] }
        1 2 emptyMachine).2.log
      = [{ size := 2, low := 1, high := 4, type := RangeStateType.Erase }] := by
  refine ⟨?_, ?_, ?_, ?_⟩
  · simp only [ObservedString.erase, finalEnv_contained]; rfl
  · simp only [ObservedString.erase, finalEnv_recordedEdits]; rfl
  · simp only [ObservedString.erase, finalEnv_contained]; rfl
  · simp only [ObservedString.erase, finalEnv_recordedEdits]; rfl

/-- C28 (code defect): in a container holding 10, 20, 30, 40 the reverse
iterator rbegin() refers to the element at index 3, but the wrapper it yields records the
position 0; writing 99 through it changes the element at index 3 and hands over the Modify
range with low = high = 0. -/
theorem reverse_iterator_records_reverse_offset :
    IteratorWrapper.deref true
        ({ attachedEvents_ := [], attachedOneshotEvents_ := [],
           contained_ := [10, 20, 30, 40] } : ObservedContainer Nat) 0
      = { pos_ := 0, ref_ := 3 } ∧
    (ReferenceWrapper.operatorAssign finalEnv
        { attachedEvents_ := [], attachedOneshotEvents_ := [], contained_ := [10, 20, 30, 40] }
        (IteratorWrapper.deref true
          ({ attachedEvents_ := [], attachedOneshotEvents_ := [],
             contained_ := [10, 20, 30, 40] } : ObservedContainer Nat) 0)
        99 emptyMachine).1.contained_ = [10, 20, 30, 99] ∧
    recordedEdits (ReferenceWrapper.operatorAssign finalEnv
        { attachedEvents_ := [], attachedOneshotEvents_ := [], contained_ := [10, 20, 30, 40] }
        (IteratorWrapper.deref true
          ({ attachedEvents_ := [], attachedOneshotEvents_ := [],
             contained_ := [10, 20, 30, 40] } : ObservedContainer Nat) 0)
        99 emptyMachine).2.log
      = [{ size := 4, low := 0, high := 0, type := RangeStateType.Modify }] := by
  refine ⟨rfl, ?_, ?_⟩
  · simp only [ReferenceWrapper.operatorAssign, finalEnv_contained]; rfl
  · simp only [ReferenceWrapper.operatorAssign, finalEnv_recordedEdits]; rfl

/-- C29: operator+= and operator-= replace the contained value by old + rhs, respectively
old - rhs, and do nothing else: both attachment lists stay as they were and no call is made
on the event context, so no event is activated.  The prefix and postfix ++ and --, like the
generic operator=, store the new value and run update once, which activates every attached
id; the postfix forms return the old value. -/
theorem plusAssign_minusAssign_do_not_notify {γ : Type} [HAdd α γ α] [HSub α γ α]
    (env : EventEnv S) (o : ModifiableObserved α) (rhs : γ) (step : α → α) (v : α)
    (m : Machine S) :
    (o.operatorPlusAssign rhs).contained_ = o.contained_ + rhs ∧
      (o.operatorPlusAssign rhs).toObservedBase = o.toObservedBase ∧
      (o.operatorMinusAssign rhs).contained_ = o.contained_ - rhs ∧
      (o.operatorMinusAssign rhs).toObservedBase = o.toObservedBase ∧
      (ModifiableObserved.operatorPrefixStep env step o m).1.contained_ = step o.contained_ ∧
      (ModifiableObserved.operatorPrefixStep env step o m).2.log
        = m.log ++ (o.attachedEvents_ ++ o.attachedOneshotEvents_).map Call.activateEvent ∧
      (ModifiableObserved.operatorPostfixStep env step o m).1
        = ModifiableObserved.operatorPrefixStep env step o m ∧
      (ModifiableObserved.operatorPostfixStep env step o m).2 = o.contained_ ∧
      (ModifiableObserved.assign env o v m).1.contained_ = v ∧
      (ModifiableObserved.assign env o v m).2.log
        = m.log ++ (o.attachedEvents_ ++ o.attachedOneshotEvents_).map Call.activateEvent := by
  refine ⟨rfl, rfl, rfl, rfl, rfl, ?_, rfl, rfl, rfl, ?_⟩
  · simp [ModifiableObserved.operatorPrefixStep, modifiableObserved_update_log]
  · simp [ModifiableObserved.assign, modifiableObserved_update_log]

/-- C30: the first render through stabilize on a stable element that holds no element does
not depend on the value of the reset flag.  For either value it makes the div element, runs
the encapsulated renderer once on it, stores the result and leaves the flag false; it then
renders the slot in the parent and slots it for the stored element: the children of the slot
are destroyed, its recorded clearers run, its native handle is replaced in the tree by the
handle of the stored element (the last call made), and the returned slot holds that handle
with a destroy function that does nothing, so that destroying the slot makes no call.  In
the sample environment the calls are the creation of div 10, the encapsulated renderer
replacing handle 10 by 11, the slot, and the replacement of the slot handle 12 by 11. -/
theorem first_render_independent_of_reset_flag (parentOf : Val → Option Val) (env : RenderEnv)
    (reset_ : Bool) :
    stabilize parentOf env { stableElement_ := none, reset_ := reset_ }
        = stabilize parentOf env { stableElement_ := none, reset_ := false } ∧
      (stabilize parentOf env { stableElement_ := none, reset_ := reset_ }).1
        = { stableElement_ := some (env.encapsulatedRenderer
              (Element.mk env.div DestroyFn.destroyByRemove [] (some []))).1,
            reset_ := false } ∧
      (stabilize parentOf env { stableElement_ := none, reset_ := reset_ }).2.1
        = some (Element.mk
            (env.encapsulatedRenderer
              (Element.mk env.div DestroyFn.destroyByRemove [] (some []))).1.val
            DestroyFn.doNotDestroy [] none) ∧
      (∀ slotted, (stabilize parentOf env { stableElement_ := none, reset_ := reset_ }).2.1
          = some slotted → Element.destructor parentOf slotted = []) ∧
      (stabilize parentOf env { stableElement_ := none, reset_ := reset_ }).2.2
        = [RenderCall.makeElement env.div, RenderCall.encapsulatedRenderer env.div]
          ++ (env.encapsulatedRenderer
              (Element.mk env.div DestroyFn.destroyByRemove [] (some []))).2.map RenderCall.dom
          ++ [RenderCall.slot]
          ++ (destroyAll parentOf env.slot.children_).map RenderCall.dom
          ++ (((env.slot.unsetup_.getD []).filter (fun c => c.clear)).map
              (fun c => RenderCall.dom (DomCall.clear c.id)))
          ++ [RenderCall.dom (DomCall.replaceWith env.slot.val
              (env.encapsulatedRenderer
                (Element.mk env.div DestroyFn.destroyByRemove [] (some []))).1.val)] ∧
      (stabilize parentOf env { stableElement_ := none, reset_ := reset_ }).2.2.getLast?
        = some (RenderCall.dom (DomCall.replaceWith env.slot.val
            (env.encapsulatedRenderer
              (Element.mk env.div DestroyFn.destroyByRemove [] (some []))).1.val)) ∧
      stabilize (fun _ => none) sampleRenderEnv { stableElement_ := none, reset_ := reset_ }
        = ({ stableElement_ := some (Element.mk 11 DestroyFn.destroyByRemove [] (some [])),
             reset_ := false },
           some (Element.mk 11 DestroyFn.doNotDestroy [] none),
           [RenderCall.makeElement 10, RenderCall.encapsulatedRenderer 10,
            RenderCall.dom (DomCall.replaceWith 10 11), RenderCall.slot,
            RenderCall.dom (DomCall.replaceWith 12 11)]) := by
  have hcalls : (stabilize parentOf env { stableElement_ := none, reset_ := reset_ }).2.2
      = [RenderCall.makeElement env.div, RenderCall.encapsulatedRenderer env.div]
          ++ (env.encapsulatedRenderer
              (Element.mk env.div DestroyFn.destroyByRemove [] (some []))).2.map RenderCall.dom
          ++ [RenderCall.slot]
          ++ (destroyAll parentOf env.slot.children_).map RenderCall.dom
          ++ (((env.slot.unsetup_.getD []).filter (fun c => c.clear)).map
              (fun c => RenderCall.dom (DomCall.clear c.id)))
          ++ [RenderCall.dom (DomCall.replaceWith env.slot.val
              (env.encapsulatedRenderer
                (Element.mk env.div DestroyFn.destroyByRemove [] (some []))).1.val)] := by
    cases reset_ <;>
      simp [stabilize, Element.slotFor, Element.setup, Element.new, Element.val,
        Element.destroy_, Element.children_, Element.unsetup_, setupClearers, runUnsetup_eq]
  refine ⟨?_, ?_, ?_, ?_, hcalls, ?_, ?_⟩
  · cases reset_ <;> simp [stabilize]
  · cases reset_ <;>
      simp [stabilize, Element.setup, Element.new, Element.val, Element.destroy_,
        Element.children_, Element.unsetup_, setupClearers]
  · cases reset_ <;>
      simp [stabilize, Element.slotFor, Element.setup, Element.new, Element.val,
        Element.destroy_, Element.children_, Element.unsetup_, setupClearers]
  · intro slotted h
    have hs : slotted = Element.mk
        (env.encapsulatedRenderer
          (Element.mk env.div DestroyFn.destroyByRemove [] (some []))).1.val
        DestroyFn.doNotDestroy [] none := by
      cases reset_ <;>
        simp [stabilize, Element.slotFor, Element.setup, Element.new, Element.val,
          Element.destroy_, Element.children_, Element.unsetup_, setupClearers] at h <;>
        exact h.symm
    rw [hs]
    simp [Element.destructor, destroyAll, DestroyFn.call]
  · rw [hcalls]
    exact List.getLast?_concat _
  · cases reset_ <;>
      simp [stabilize, sampleRenderEnv, Element.slotFor, Element.replaceElementImpl,
        Element.setup, Element.new, Element.val, Element.destroy_, Element.children_,
        Element.unsetup_, setupClearers, setupCalls, runUnsetup, runEventClearers, destroyAll]

end Nui
